import Mathlib

/-!
Verification of the combat-simulation core of the wave-based arena shooter
(source files src/Enemy.js, src/Player.js, src/Projectile.js,
src/ExplodingBarrel.js, src/Game.js, src/config.js, src/Pickup.js).

Modelling conventions:
* JavaScript numbers are modelled as exact rationals.
* Math.sqrt (used by distXZ and THREE.Vector3.normalize and length) has no
  total rational realisation, so every geometric definition takes an explicit
  square-root function sq as a parameter; theorems that depend on its
  behaviour carry the hypothesis that sq is a square root at the values
  actually used, and concrete runs use ratSqrt, which is exact on squares of
  rationals.
* THREE.Vector3.normalize is divideScalar of (length or 1), that is,
  a zero length is replaced by 1 before dividing.
* Cosmetic collaborators (meshes, animation, particles, sound, UI, camera)
  are outside the core per the specification and are not modelled; the
  transient hit flash of Enemy.takeDamage mutates only material colors.
* Math.random driven data (enemy role draw, spawn position, pellet spread)
  is irrelevant to every claim treated here except as opaque inputs; where a
  modelled function consumes such data it is taken as an explicit parameter.
-/

namespace Boom

/-! ## Configuration constants (src/config.js) -/

def PLAYER_SPEED : ℚ := 8
def PLAYER_HEALTH : ℚ := 100
def PLAYER_RADIUS : ℚ := 0.6
def ARENA_HALF : ℚ := 28
def ENEMY_SEPARATION : ℚ := 2.0
def ENEMY_SEP_FORCE : ℚ := 8
def ENEMY_CONTACT_COOLDOWN : ℚ := 0.8
def BARREL_RADIUS : ℚ := 0.7
def BARREL_EXPLOSION_RADIUS : ℚ := 5
def BARREL_EXPLOSION_DAMAGE : ℚ := 50
def PROJECTILE_RADIUS : ℚ := 0.12
def PROJECTILE_MAX_DIST : ℚ := 50
def WAVE_BASE_ENEMIES : ℤ := 15
def WAVE_ENEMY_INCREMENT : ℤ := 5
def BOSS_WAVE_INTERVAL : ℤ := 5
def WAVE_BREAK_DURATION : ℚ := 3
def HEALTH_RESTORE : ℚ := 30
def PICKUP_COLLECT_RADIUS : ℚ := 1.8

/-- CONFIG.WEAPONS.RocketLauncher.damage. -/
def ROCKET_DAMAGE : ℚ := 60

/-- CONFIG.WEAPONS.RocketLauncher.explosionRadius. -/
def ROCKET_EXPLOSION_RADIUS : ℚ := 5

/-! ## Square-root handling -/

/-- Exact square root on squares of rationals: on input p/q with p, q squares
of naturals it returns the true square root; witnesses only ever apply it
at such values.  Stands in for Math.sqrt on concrete runs. -/
def ratSqrt (x : ℚ) : ℚ :=
  if x < 0 then 0 else (Nat.sqrt x.num.toNat : ℚ) / (Nat.sqrt x.den : ℚ)

/-- Squared planar distance between two points of the XZ plane. -/
def distSqXZ (a b : ℚ × ℚ) : ℚ :=
  (a.1 - b.1) * (a.1 - b.1) + (a.2 - b.2) * (a.2 - b.2)

/-- distXZ of src/Pickup.js tail (utils): planar distance, with Math.sqrt
abstracted into the parameter sq. -/
def distXZ (sq : ℚ → ℚ) (a b : ℚ × ℚ) : ℚ :=
  sq (distSqXZ a b)

/-- THREE.Vector3.normalize on a vector of the XZ plane: divideScalar of
(length or 1); a zero length is replaced by 1. -/
def jsNormalize (sq : ℚ → ℚ) (v : ℚ × ℚ) : ℚ × ℚ :=
  let len := sq (v.1 * v.1 + v.2 * v.2)
  let l := if len = 0 then 1 else len
  (v.1 / l, v.2 / l)

/-! ## Enemy health and death lifecycle (src/Enemy.js) -/

/-- Behaviour role drawn at spawn (src/Enemy.js constructor). -/
inductive Role
  | rusher
  | flanker
  | circler
deriving DecidableEq, Repr

/-- State of one enemy instance: the fields of the Enemy class of
src/Enemy.js that belong to the simulation core (mesh, animation and the
cosmetic flash are external). -/
structure Enemy where
  x : ℚ
  z : ℚ
  radius : ℚ
  speed : ℚ
  damage : ℚ
  role : Role
  flankerSide : ℚ
  orbitAngle : ℚ
  health : ℚ
  maxHealth : ℚ
  alive : Bool
  dying : Bool
  deathTimer : ℚ
  contactCooldown : ℚ
deriving DecidableEq, Repr

/-- Enemy.die of src/Enemy.js lines 136-141. -/
def Enemy.die (e : Enemy) : Enemy :=
  { e with alive := false, dying := true, deathTimer := 1.5 }

/-- Enemy.takeDamage of src/Enemy.js lines 112-134: no-op returning false
when already dying; otherwise subtracts the amount from health (without any
clamp) and, when the resulting health is at most 0, dies and returns true. -/
def Enemy.takeDamage (e : Enemy) (amount : ℚ) : Enemy × Bool :=
  if e.dying then (e, false)
  else
    let e1 := { e with health := e.health - amount }
    if e1.health ≤ 0 then (e1.die, true) else (e1, false)

/-- Iterated Enemy.takeDamage over a list of damage amounts, recording the
killed flag returned by each call. -/
def Enemy.runDamage (e : Enemy) : List ℚ → Enemy × List Bool
  | [] => (e, [])
  | a :: as =>
    let r := e.takeDamage a
    let rest := r.1.runDamage as
    (rest.1, r.2 :: rest.2)

/-! ## Player health (src/Player.js) -/

/-- The weapon identifiers of CONFIG.WEAPONS. -/
inductive WeaponName
  | Pistol
  | Shotgun
  | AK
  | SMG
  | Sniper
  | RocketLauncher
deriving DecidableEq, Repr

/-- Simulation-core fields of the Player class of src/Player.js. -/
structure Player where
  x : ℚ
  z : ℚ
  health : ℚ
  maxHealth : ℚ
  alive : Bool
  fireCooldown : ℚ
  contactCooldown : ℚ
  currentWeapon : WeaponName
deriving DecidableEq, Repr

/-- Player.takeDamage of src/Player.js lines 79-87: no-op when dead;
otherwise subtracts, and at health at most 0 clamps health to 0 and clears
the alive flag. -/
def Player.takeDamage (p : Player) (amount : ℚ) : Player :=
  if p.alive = false then p
  else
    let p1 := { p with health := p.health - amount }
    if p1.health ≤ 0 then { p1 with health := 0, alive := false } else p1

/-- Player.heal of src/Player.js lines 89-91. -/
def Player.heal (p : Player) (amount : ℚ) : Player :=
  { p with health := min p.maxHealth (p.health + amount) }

/-- A freshly spawned basic enemy at a given position: constructor of
src/Enemy.js with CONFIG.ENEMY_TYPES.basic (health 30, radius 0.5,
damage 10, speed 3.5 before variance), with the random role draw and speed
variance fixed to rusher and 1. -/
def basicEnemyAt (x z : ℚ) : Enemy :=
  { x := x, z := z, radius := 0.5, speed := 3.5, damage := 10,
    role := .rusher, flankerSide := 1, orbitAngle := 0,
    health := 30, maxHealth := 30, alive := true, dying := false,
    deathTimer := 0, contactCooldown := 0 }

/-- A freshly spawned hazmat enemy (health 120, radius 0.7, damage 25,
speed 2.2), role circler per the constructor. -/
def hazmatEnemyAt (x z : ℚ) : Enemy :=
  { x := x, z := z, radius := 0.7, speed := 2.2, damage := 25,
    role := .circler, flankerSide := 1, orbitAngle := 0,
    health := 120, maxHealth := 120, alive := true, dying := false,
    deathTimer := 0, contactCooldown := 0 }

/-- The player at level start (src/Player.js constructor). -/
def playerInit : Player :=
  { x := 0, z := 0, health := PLAYER_HEALTH, maxHealth := PLAYER_HEALTH,
    alive := true, fireCooldown := 0, contactCooldown := 0,
    currentWeapon := .Pistol }

/-! ### Lemmas on the damage lifecycle -/

theorem Enemy.takeDamage_of_dying {e : Enemy} (h : e.dying = true) (a : ℚ) :
    e.takeDamage a = (e, false) := by
  simp [Enemy.takeDamage, h]

theorem Enemy.takeDamage_snd_iff (e : Enemy) (a : ℚ) :
    (e.takeDamage a).2 = true ↔ e.dying = false ∧ e.health - a ≤ 0 := by
  rcases hd : e.dying with _ | _
  · by_cases hh : e.health ≤ a <;>
      simp [Enemy.takeDamage, Enemy.die, hd, sub_nonpos, hh]
  · simp [Enemy.takeDamage, hd]

theorem Enemy.takeDamage_dying_of_killed {e : Enemy} {a : ℚ}
    (h : (e.takeDamage a).2 = true) :
    (e.takeDamage a).1.dying = true ∧ (e.takeDamage a).1.alive = false := by
  rcases hd : e.dying with _ | _
  · by_cases hh : e.health - a ≤ 0 <;>
      simp [Enemy.takeDamage, Enemy.die, hd, hh] at h ⊢
  · simp [Enemy.takeDamage_of_dying hd] at h

theorem Enemy.takeDamage_dying_of_not_killed {e : Enemy} {a : ℚ}
    (hd : e.dying = false) (h : (e.takeDamage a).2 = false) :
    (e.takeDamage a).1.dying = false := by
  by_cases hh : e.health - a ≤ 0 <;>
    simp [Enemy.takeDamage, Enemy.die, hd, hh] at h ⊢

theorem Enemy.runDamage_of_dying {e : Enemy} (h : e.dying = true) :
    ∀ as : List ℚ, (e.runDamage as).1 = e ∧ (e.runDamage as).2.count true = 0 := by
  intro as
  induction as with
  | nil => simp [Enemy.runDamage]
  | cons a as ih =>
    simp only [Enemy.runDamage, Enemy.takeDamage_of_dying h]
    simpa [List.count_cons] using ih

/-- Over any sequence of takeDamage calls the killed flag comes back true at
most once: once the enemy is dying every further call is a no-op. -/
theorem Enemy.runDamage_count_le_one (e : Enemy) (as : List ℚ) :
    (e.runDamage as).2.count true ≤ 1 := by
  induction as generalizing e with
  | nil => simp [Enemy.runDamage]
  | cons a as ih =>
    rcases hd : e.dying with _ | _
    · rcases hk : (e.takeDamage a).2 with _ | _
      · simpa [Enemy.runDamage, hk, List.count_cons] using ih (e.takeDamage a).1
      · have hdy := (Enemy.takeDamage_dying_of_killed hk).1
        have hrest := Enemy.runDamage_of_dying hdy as
        simp [Enemy.runDamage, hk, List.count_cons, hrest.2]
    · have hrest := Enemy.runDamage_of_dying hd (a :: as)
      omega

theorem Player.takeDamage_health_nonneg (p : Player) (a : ℚ)
    (h : 0 ≤ p.health) : 0 ≤ (p.takeDamage a).health := by
  rcases hp : p.alive with _ | _
  · simp [Player.takeDamage, hp, h]
  · by_cases hh : p.health ≤ a
    · simp [Player.takeDamage, hp, sub_nonpos, hh]
    · simp only [Player.takeDamage, hp, Bool.true_eq_false, if_false, sub_nonpos,
        if_neg hh]
      linarith [not_le.mp hh]

theorem Player.takeDamage_of_dead {p : Player} (h : p.alive = false) (a : ℚ) :
    p.takeDamage a = p := by
  simp [Player.takeDamage, h]

/-- C1 (falsifying instance): the claim asserts health is nonnegative
immediately after any takeDamage call, but Enemy.takeDamage never clamps
health, so a fresh basic enemy (health 30) hit for 40 ends the call with
health -10. -/
theorem c1_enemy_health_nonneg_counterexample :
    ¬ (0 ≤ ((basicEnemyAt 0 0).takeDamage 40).1.health) := by
  simp [basicEnemyAt, Enemy.takeDamage, Enemy.die]
  norm_num

/-- C1 (amended): player health is nonnegative after any takeDamage call
(clamped at 0, alive cleared at most once since further calls are no-ops);
enemy health can be negative exactly on (and after) the killing call, but
stays positive as long as the enemy is not dying; and the enemy death
transition fires at most once across any sequence of takeDamage calls,
precisely on the call whose damage application first brings health to or
below 0. -/
theorem c1_health_and_death_once :
    (∀ (p : Player) (a : ℚ), 0 ≤ p.health → 0 ≤ (p.takeDamage a).health)
    ∧ (∀ (p : Player) (a : ℚ), p.alive = false → p.takeDamage a = p)
    ∧ (∀ (e : Enemy) (a : ℚ),
        (e.takeDamage a).2 = true ↔ e.dying = false ∧ e.health - a ≤ 0)
    ∧ (∀ (e : Enemy) (a : ℚ), (e.takeDamage a).2 = true →
        (e.takeDamage a).1.dying = true ∧ (e.takeDamage a).1.alive = false)
    ∧ (∀ (e : Enemy) (a : ℚ), e.dying = false → 0 < e.health →
        (e.takeDamage a).1.dying = false → 0 < (e.takeDamage a).1.health)
    ∧ (∀ (e : Enemy) (as : List ℚ), (e.runDamage as).2.count true ≤ 1) := by
  refine ⟨Player.takeDamage_health_nonneg,
    fun p a h => Player.takeDamage_of_dead h a,
    Enemy.takeDamage_snd_iff,
    fun e a h => Enemy.takeDamage_dying_of_killed h,
    ?_,
    Enemy.runDamage_count_le_one⟩
  intro e a hd hpos hnd
  by_cases hh : e.health - a ≤ 0
  · exfalso
    have : (e.takeDamage a).1.dying = true :=
      (Enemy.takeDamage_dying_of_killed
        ((Enemy.takeDamage_snd_iff e a).mpr ⟨hd, hh⟩)).1
    rw [this] at hnd
    exact Bool.true_eq_false.mp hnd
  · have : (e.takeDamage a).1.health = e.health - a := by
      simp [Enemy.takeDamage, hd, hh]
    rw [this]
    linarith [not_le.mp hh]

/-- C1 witness: the scenario of the specification, a rusher with health 30
hit for 20 then 15 — the first call does not kill, the second does, and the
killed flag comes back true exactly once. -/
theorem c1_health_and_death_once_witness :
    0 ≤ (playerInit.takeDamage 40).health
    ∧ (((basicEnemyAt 0 0).takeDamage 20).1.takeDamage 15).2 = true
    ∧ ((basicEnemyAt 0 0).runDamage [20, 15, 15]).2.count true ≤ 1
    ∧ ((basicEnemyAt 0 0).runDamage [20, 15, 15]).2 = [false, true, false] := by
  refine ⟨c1_health_and_death_once.1 playerInit 40 (by norm_num [playerInit, PLAYER_HEALTH]),
    ?_, c1_health_and_death_once.2.2.2.2.2 (basicEnemyAt 0 0) [20, 15, 15], ?_⟩
  · have h := (c1_health_and_death_once.2.2.1
      ((basicEnemyAt 0 0).takeDamage 20).1 15)
    rw [h]
    constructor
    · simp [basicEnemyAt, Enemy.takeDamage, Enemy.die]
      norm_num
    · simp [basicEnemyAt, Enemy.takeDamage, Enemy.die]
      norm_num
  · simp [basicEnemyAt, Enemy.runDamage, Enemy.takeDamage, Enemy.die]
    norm_num

/-! ## Wave director (WaveManager, src/Enemy.js second module) -/

/-- Wave phase: the state string field of WaveManager. -/
inductive WavePhase
  | BREAK
  | ACTIVE
deriving DecidableEq, Repr

/-- WaveManager fields (src/Enemy.js). -/
structure WaveManager where
  wave : ℤ
  state : WavePhase
  breakTimer : ℚ
  enemiesToSpawn : ℤ
  spawnTimer : ℚ
  spawnInterval : ℚ
deriving DecidableEq, Repr

/-- WaveManager constructor. -/
def WaveManager.init : WaveManager :=
  { wave := 0, state := .BREAK, breakTimer := 0, enemiesToSpawn := 0,
    spawnTimer := 0, spawnInterval := 0.4 }

/-- WaveManager.startWave of src/Enemy.js lines 165-174.  The boss-wave test
of the source is JavaScript remainder equal 0, which agrees with divisibility
(hence with the mathematical mod) for every integer input. -/
def WaveManager.startWave (m : WaveManager) (waveNum : ℤ) : WaveManager :=
  let count := WAVE_BASE_ENEMIES + (waveNum - 1) * WAVE_ENEMY_INCREMENT
  let m1 := { m with wave := waveNum, state := .ACTIVE,
                     enemiesToSpawn := count, spawnTimer := 0 }
  if waveNum % BOSS_WAVE_INTERVAL = 0 then
    { m1 with enemiesToSpawn := m1.enemiesToSpawn + 3 }
  else m1

/-- WaveManager.startBreak of src/Enemy.js lines 176-179. -/
def WaveManager.startBreak (m : WaveManager) : WaveManager :=
  { m with state := .BREAK, breakTimer := WAVE_BREAK_DURATION }

/-- Formation kinds of the fixed ordered list SPAWN_FORMATIONS. -/
inductive Formation
  | SURROUND
  | PINCER
  | SWARM
  | LANE
deriving DecidableEq, Repr

/-- SPAWN_FORMATIONS of src/Enemy.js line 153. -/
def SPAWN_FORMATIONS : List Formation :=
  [.SURROUND, .PINCER, .SWARM, .LANE]

/-- WaveManager.getFormation of src/Enemy.js lines 191-193: the JavaScript
remainder operator truncates toward zero (Int.tmod), and indexing a
JavaScript array out of range yields undefined, modelled as none. -/
def WaveManager.getFormation (m : WaveManager) : Option Formation :=
  let i := Int.tmod (m.wave - 1) (SPAWN_FORMATIONS.length : ℤ)
  if 0 ≤ i then SPAWN_FORMATIONS[i.toNat]? else none

/-- Events returned by WaveManager.update.  The SPAWN payload (enemy type
and position) is drawn with Math.random in the source and no claim depends
on it, so it is not carried here. -/
inductive WaveEvent
  | WAVE_START (wave : ℤ)
  | BREAK (timeLeft : ℚ)
  | SPAWN
  | WAVE_CLEAR (wave : ℤ)
  | NONE
deriving DecidableEq, Repr

/-- Whether an event is WAVE_CLEAR. -/
def WaveEvent.isClear : WaveEvent → Bool
  | .WAVE_CLEAR _ => true
  | _ => false

/-- WaveManager.update of src/Enemy.js lines 234-260, direct translation
including the fall-through from the spawn branch (spawn pending but its
timer not yet expired) to the wave-clear test. -/
def WaveManager.update (m : WaveManager) (dt : ℚ) (enemyCount : ℤ) :
    WaveManager × WaveEvent :=
  match m.state with
  | .BREAK =>
    let m1 := { m with breakTimer := m.breakTimer - dt }
    if m1.breakTimer ≤ 0 then
      let m2 := m1.startWave (m1.wave + 1)
      (m2, .WAVE_START m2.wave)
    else (m1, .BREAK m1.breakTimer)
  | .ACTIVE =>
    if 0 < m.enemiesToSpawn then
      let m1 := { m with spawnTimer := m.spawnTimer - dt }
      if m1.spawnTimer ≤ 0 then
        ({ m1 with spawnTimer := m1.spawnInterval,
                   enemiesToSpawn := m1.enemiesToSpawn - 1 }, .SPAWN)
      else if m1.enemiesToSpawn ≤ 0 ∧ enemyCount ≤ 0 then
        (m1.startBreak, .WAVE_CLEAR m1.wave)
      else (m1, .NONE)
    else
      if m.enemiesToSpawn ≤ 0 ∧ enemyCount ≤ 0 then
        (m.startBreak, .WAVE_CLEAR m.wave)
      else (m, .NONE)

/-- C4 (falsifying instance): during a wave break both of the claim's
conditions can hold (nothing left to spawn and no enemy alive), yet update
returns a BREAK event, not WAVE_CLEAR — the claimed iff omits the phase. -/
theorem c4_wave_clear_iff_counterexample :
    (WaveManager.init.startBreak.enemiesToSpawn = 0 ∧ (0 : ℤ) = 0)
    ∧ (WaveManager.init.startBreak.update 1 0).2 = .BREAK 2
    ∧ ((WaveManager.init.startBreak.update 1 0).2.isClear = false) := by
  refine ⟨⟨rfl, rfl⟩, ?_, ?_⟩ <;>
    norm_num [WaveManager.init, WaveManager.startBreak, WaveManager.update,
      WAVE_BREAK_DURATION, WaveEvent.isClear]

/-- C4 (amended): for states with a nonnegative spawn queue and a
nonnegative alive count, update returns WAVE_CLEAR exactly when the manager
is in the ACTIVE phase, the spawn queue is empty and no enemy is alive —
and hence never while either count is nonzero. -/
theorem c4_wave_clear_iff (m : WaveManager) (dt : ℚ) (enemyCount : ℤ)
    (hq : 0 ≤ m.enemiesToSpawn) (he : 0 ≤ enemyCount) :
    (m.update dt enemyCount).2.isClear = true ↔
      m.state = .ACTIVE ∧ m.enemiesToSpawn = 0 ∧ enemyCount = 0 := by
  rcases hs : m.state with _ | _
  · constructor
    · intro h
      exfalso
      revert h
      unfold WaveManager.update
      rw [hs]
      by_cases hb : m.breakTimer - dt ≤ 0 <;> simp [hb, WaveEvent.isClear]
    · rintro ⟨h, -⟩
      cases h
  · unfold WaveManager.update
    rw [hs]
    by_cases h0 : 0 < m.enemiesToSpawn
    · have hne : ¬ m.enemiesToSpawn = 0 := by omega
      by_cases hst : m.spawnTimer - dt ≤ 0
      · simp [h0, hst, WaveEvent.isClear, hne]
      · simp only [if_pos h0, if_neg hst]
        have : ¬ (m.enemiesToSpawn ≤ 0 ∧ enemyCount ≤ 0) := by
          intro hc
          omega
        simp [this, WaveEvent.isClear, hne]
    · have hz : m.enemiesToSpawn = 0 := by omega
      by_cases hec : enemyCount ≤ 0
      · have : enemyCount = 0 := by omega
        simp [h0, hz, hec, this, WaveEvent.isClear]
      · have : ¬ enemyCount = 0 := by omega
        simp [h0, hz, hec, this, WaveEvent.isClear]

/-- C8: for every wave number n at least 1, startWave(n) sets the spawn
quota to base + (n-1)*increment (base 15, increment 5), adds the fixed
bonus 3 exactly when n is a multiple of the boss-wave interval 5, and
resets the per-wave spawn timer. -/
theorem c8_startWave_quota (m : WaveManager) (n : ℤ) (_hn : 1 ≤ n) :
    (m.startWave n).enemiesToSpawn =
      WAVE_BASE_ENEMIES + (n - 1) * WAVE_ENEMY_INCREMENT
        + (if n % BOSS_WAVE_INTERVAL = 0 then 3 else 0)
    ∧ (m.startWave n).spawnTimer = 0
    ∧ (m.startWave n).wave = n
    ∧ (m.startWave n).state = .ACTIVE := by
  unfold WaveManager.startWave
  by_cases h : n % BOSS_WAVE_INTERVAL = 0 <;> simp [h]

/-- C8 witness: startWave(3) yields a quota of 25. -/
theorem c8_startWave_quota_witness :
    (WaveManager.init.startWave 3).enemiesToSpawn = 25 := by
  have h := (c8_startWave_quota WaveManager.init 3 (by norm_num)).1
  rw [h]
  norm_num [WAVE_BASE_ENEMIES, WAVE_ENEMY_INCREMENT, BOSS_WAVE_INTERVAL]

/-- C9: the formation selector reads nothing but the wave number (two
managers agreeing on the wave select the same formation) and, for every
wave number at least 1, returns precisely the entry at index
(wave - 1) mod 4 of the fixed ordered list SURROUND, PINCER, SWARM, LANE. -/
theorem c9_formation_deterministic (m m2 : WaveManager)
    (hw : 1 ≤ m.wave) (h12 : m2.wave = m.wave) :
    m2.getFormation = m.getFormation
    ∧ m.getFormation = SPAWN_FORMATIONS[((m.wave - 1) % 4).toNat]?
    ∧ m.getFormation.isSome = true := by
  have hsame : m2.getFormation = m.getFormation := by
    unfold WaveManager.getFormation
    rw [h12]
  have h0 : (0 : ℤ) ≤ m.wave - 1 := by omega
  have hlen : ((SPAWN_FORMATIONS.length : ℤ)) = 4 := by
    norm_num [SPAWN_FORMATIONS]
  have htm : Int.tmod (m.wave - 1) (SPAWN_FORMATIONS.length : ℤ)
      = (m.wave - 1) % 4 := by
    rw [hlen]
    exact Int.tmod_eq_emod h0 (by norm_num)
  have hform : m.getFormation = SPAWN_FORMATIONS[((m.wave - 1) % 4).toNat]? := by
    unfold WaveManager.getFormation
    rw [htm]
    rw [if_pos (Int.emod_nonneg _ (by norm_num) : 0 ≤ (m.wave - 1) % 4)]
  refine ⟨hsame, hform, ?_⟩
  rw [hform]
  have hlt : ((m.wave - 1) % 4).toNat < SPAWN_FORMATIONS.length := by
    have := Int.emod_lt_of_pos (m.wave - 1) (by norm_num : (0:ℤ) < 4)
    have := Int.emod_nonneg (m.wave - 1) (by norm_num : (4:ℤ) ≠ 0)
    simp [SPAWN_FORMATIONS]
    omega
  simp [List.getElem?_eq_getElem hlt]

/-- C9 witness: at wave 1 the selector yields SURROUND, identically for two
managers differing everywhere but the wave. -/
theorem c9_formation_deterministic_witness :
    ({ WaveManager.init with wave := 1, state := .ACTIVE }).getFormation
      = ({ WaveManager.init with wave := 1 }).getFormation
    ∧ ({ WaveManager.init with wave := 1 }).getFormation
        = SPAWN_FORMATIONS[(((1 : ℤ) - 1) % 4).toNat]? := by
  have h := c9_formation_deterministic
    { WaveManager.init with wave := 1 }
    { WaveManager.init with wave := 1, state := .ACTIVE }
    (by norm_num) rfl
  exact ⟨h.1, h.2.1⟩

/-- C4 witness: a concrete ACTIVE manager with empty queue and no alive
enemies does return WAVE_CLEAR. -/
theorem c4_wave_clear_iff_witness :
    (({ WaveManager.init with state := .ACTIVE }).update (1 : ℚ) 0).2.isClear
      = true :=
  (c4_wave_clear_iff { WaveManager.init with state := .ACTIVE } 1 0
    (by norm_num [WaveManager.init]) (by norm_num)).mpr ⟨rfl, rfl, rfl⟩

/-! ## Area damage (src/ExplodingBarrel.js explode, src/Game.js explodeAt)

Each application is parametrized by the entity's own planar distance to the
blast center: the value of distXZ(center, entity.position), whose square
root the source obtains from Math.sqrt. -/

theorem Enemy.takeDamage_health_sub {e : Enemy} (hd : e.dying = false) (a : ℚ) :
    (e.takeDamage a).1.health = e.health - a := by
  by_cases hh : e.health - a ≤ 0 <;>
    simp [Enemy.takeDamage, Enemy.die, hd, hh]

theorem Player.takeDamage_health_clamp {p : Player} (hp : p.alive = true) (a : ℚ) :
    (p.takeDamage a).health = max 0 (p.health - a) := by
  by_cases hh : p.health ≤ a
  · rw [max_eq_left (by linarith : p.health - a ≤ 0)]
    simp [Player.takeDamage, hp, sub_nonpos, hh]
  · rw [max_eq_right (by linarith [not_le.mp hh] : (0:ℚ) ≤ p.health - a)]
    simp [Player.takeDamage, hp, sub_nonpos, hh]

/-- ExplodingBarrel.explode applied to one enemy at distance d from the
barrel (src/ExplodingBarrel.js lines 28-35): skip dying enemies, and below
the blast radius deal BARREL_EXPLOSION_DAMAGE * (1 - d / radius). -/
def barrelExplodeEnemy (e : Enemy) (d : ℚ) : Enemy :=
  if e.dying then e
  else if d < BARREL_EXPLOSION_RADIUS then
    (e.takeDamage (BARREL_EXPLOSION_DAMAGE * (1 - d / BARREL_EXPLOSION_RADIUS))).1
  else e

/-- ExplodingBarrel.explode applied to the player at distance pd
(src/ExplodingBarrel.js lines 36-39): below the blast radius deal
BARREL_EXPLOSION_DAMAGE * 0.5 * (1 - pd / radius). -/
def barrelExplodePlayer (p : Player) (pd : ℚ) : Player :=
  if pd < BARREL_EXPLOSION_RADIUS then
    p.takeDamage (BARREL_EXPLOSION_DAMAGE * 0.5 * (1 - pd / BARREL_EXPLOSION_RADIUS))
  else p

/-- Game explodeAt applied to one enemy at distance d from the blast center
(src/Game.js lines 960-967): below the rocket blast radius deal
damage * (1 - d / r * 0.5) — at the rim this is half the base damage, not
zero. The killed flag feeds the kill handler. -/
def explodeAtEnemy (e : Enemy) (d : ℚ) : Enemy × Bool :=
  if e.dying then (e, false)
  else if d < ROCKET_EXPLOSION_RADIUS then
    e.takeDamage (ROCKET_DAMAGE * (1 - d / ROCKET_EXPLOSION_RADIUS * 0.5))
  else (e, false)

/-- Game explodeAt applied to the player at distance pd (src/Game.js lines
969-973): below the rocket blast radius deal 20 * (1 - pd / r), a fixed
reduced base falling linearly to zero. -/
def explodeAtPlayer (p : Player) (pd : ℚ) : Player :=
  if pd < ROCKET_EXPLOSION_RADIUS then
    p.takeDamage (20 * (1 - pd / ROCKET_EXPLOSION_RADIUS))
  else p

/-- C3 (falsifying instance): for the explosive-projectile resolution the
enemy damage does not fall to zero at the blast radius: a hazmat (health
120) at distance 2.5 from a rocket blast loses 45, not the 30 the claimed
linear-to-zero falloff of the base 60 would give. -/
theorem c3_linear_falloff_counterexample :
    (explodeAtEnemy (hazmatEnemyAt 0 0) (5/2)).1.health = 75
    ∧ ¬ ((explodeAtEnemy (hazmatEnemyAt 0 0) (5/2)).1.health
          = 120 - ROCKET_DAMAGE * (1 - (5/2) / ROCKET_EXPLOSION_RADIUS)) := by
  constructor <;>
    norm_num [explodeAtEnemy, Enemy.takeDamage, Enemy.die, hazmatEnemyAt,
      ROCKET_DAMAGE, ROCKET_EXPLOSION_RADIUS]

/-- C3 (amended): barrel detonation deals each non-dying enemy
50 * (1 - d/5) and the player half the base, 25 * (1 - pd/5), each from its
own distance, exactly zero from the blast radius 5 on (so an enemy at
distance 2.5 loses 25 and one at distance 6 loses nothing); the explosive
projectile deals the player 20 * (1 - pd/5), linear to zero, but deals each
non-dying enemy 60 * (1 - d/5 * 0.5), which falls only to half the base at
the radius. -/
theorem c3_area_damage_falloff :
    (∀ (e : Enemy) (d : ℚ), e.dying = false → d < BARREL_EXPLOSION_RADIUS →
      (barrelExplodeEnemy e d).health
        = e.health - BARREL_EXPLOSION_DAMAGE * (1 - d / BARREL_EXPLOSION_RADIUS))
    ∧ (∀ (e : Enemy) (d : ℚ), BARREL_EXPLOSION_RADIUS ≤ d →
        barrelExplodeEnemy e d = e)
    ∧ (∀ (p : Player) (pd : ℚ), p.alive = true → pd < BARREL_EXPLOSION_RADIUS →
        (barrelExplodePlayer p pd).health
          = max 0 (p.health
              - BARREL_EXPLOSION_DAMAGE * 0.5 * (1 - pd / BARREL_EXPLOSION_RADIUS)))
    ∧ (∀ (p : Player) (pd : ℚ), BARREL_EXPLOSION_RADIUS ≤ pd →
        barrelExplodePlayer p pd = p)
    ∧ (∀ (p : Player) (pd : ℚ), p.alive = true → pd < ROCKET_EXPLOSION_RADIUS →
        (explodeAtPlayer p pd).health
          = max 0 (p.health - 20 * (1 - pd / ROCKET_EXPLOSION_RADIUS)))
    ∧ (∀ (e : Enemy) (d : ℚ), e.dying = false → d < ROCKET_EXPLOSION_RADIUS →
        (explodeAtEnemy e d).1.health
          = e.health - ROCKET_DAMAGE * (1 - d / ROCKET_EXPLOSION_RADIUS * 0.5))
    ∧ ROCKET_DAMAGE
        * (1 - ROCKET_EXPLOSION_RADIUS / ROCKET_EXPLOSION_RADIUS * 0.5)
        = ROCKET_DAMAGE / 2
    ∧ BARREL_EXPLOSION_DAMAGE
        * (1 - BARREL_EXPLOSION_RADIUS / BARREL_EXPLOSION_RADIUS) = 0 := by
  refine ⟨?_, ?_, ?_, ?_, ?_, ?_, ?_, ?_⟩
  · intro e d hd hlt
    rw [barrelExplodeEnemy, if_neg (by simp [hd]), if_pos hlt,
      Enemy.takeDamage_health_sub hd]
  · intro e d hge
    rw [barrelExplodeEnemy]
    split
    · rfl
    · rw [if_neg (not_lt.mpr hge)]
  · intro p pd hp hlt
    rw [barrelExplodePlayer, if_pos hlt, Player.takeDamage_health_clamp hp]
  · intro p pd hge
    rw [barrelExplodePlayer, if_neg (not_lt.mpr hge)]
  · intro p pd hp hlt
    rw [explodeAtPlayer, if_pos hlt, Player.takeDamage_health_clamp hp]
  · intro e d hd hlt
    rw [explodeAtEnemy, if_neg (by simp [hd]), if_pos hlt,
      Enemy.takeDamage_health_sub hd]
  · norm_num [ROCKET_DAMAGE, ROCKET_EXPLOSION_RADIUS]
  · norm_num [BARREL_EXPLOSION_DAMAGE, BARREL_EXPLOSION_RADIUS]

/-- C3 witness: the specification scenario — barrel blast radius 5, base
damage 50: an enemy at distance 2.5 loses 25 (health 120 to 95), an enemy
at distance 6 loses nothing. -/
theorem c3_area_damage_falloff_witness :
    (barrelExplodeEnemy (hazmatEnemyAt 0 0) (5/2)).health = 95
    ∧ barrelExplodeEnemy (hazmatEnemyAt 0 0) 6 = hazmatEnemyAt 0 0 := by
  constructor
  · have h := c3_area_damage_falloff.1 (hazmatEnemyAt 0 0) (5/2) rfl
      (by norm_num [BARREL_EXPLOSION_RADIUS])
    rw [h]
    norm_num [hazmatEnemyAt, BARREL_EXPLOSION_DAMAGE, BARREL_EXPLOSION_RADIUS]
  · exact c3_area_damage_falloff.2.1 (hazmatEnemyAt 0 0) 6
      (by norm_num [BARREL_EXPLOSION_RADIUS])

/-! ## Projectile-versus-enemy collision and the piercing hit-set
(src/Projectile.js constructor, src/Game.js lines 840-866)

Enemy instances are identified by an index (the JavaScript Set tracks
object identity); whether the projectile overlaps a given enemy on a given
frame — the test distXZ < PROJECTILE_RADIUS + enemy.radius along the
quantified, arbitrary trajectories — is supplied as a per-frame predicate
on identities. -/

/-- The fields of the Projectile class (src/Projectile.js constructor):
ballistic state, kind flags, damage and the per-projectile set of
already-hit enemies, empty at construction. -/
structure Projectile where
  x : ℚ
  z : ℚ
  dirX : ℚ
  dirZ : ℚ
  speed : ℚ
  distTraveled : ℚ
  explosionRadius : ℚ
  alive : Bool
  damage : ℚ
  piercing : Bool
  explosive : Bool
  hitEnemies : List ℕ
deriving DecidableEq, Repr

/-- Inner loop of the projectile-versus-enemy phase for one projectile
(src/Game.js lines 844-866): skip dying or already-hit enemies; on the
first overlapping enemy apply the projectile damage, then either record the
enemy in the hit-set (piercing) or deactivate the projectile (explosive or
normal; the explosive area damage itself is the separate explodeAt
resolution), and in every hit case stop scanning further enemies this
frame.  Returns the projectile, the updated enemy list and the identities
damaged by direct hit this pass. -/
def projEnemyLoop (proj : Projectile) (hit : ℕ → Bool) :
    List (ℕ × Enemy) → Projectile × List (ℕ × Enemy) × List ℕ
  | [] => (proj, [], [])
  | (i, e) :: rest =>
    if e.dying ∨ i ∈ proj.hitEnemies then
      let r := projEnemyLoop proj hit rest
      (r.1, (i, e) :: r.2.1, r.2.2)
    else if hit i then
      let e1 := (e.takeDamage proj.damage).1
      let proj1 :=
        if proj.piercing then { proj with hitEnemies := i :: proj.hitEnemies }
        else { proj with alive := false }
      (proj1, (i, e1) :: rest, [i])
    else
      let r := projEnemyLoop proj hit rest
      (r.1, (i, e) :: r.2.1, r.2.2)

/-- One frame of the phase for one projectile: inactive projectiles are
skipped (src/Game.js line 842). -/
def projFrame (proj : Projectile) (hit : ℕ → Bool)
    (enemies : List (ℕ × Enemy)) : Projectile × List (ℕ × Enemy) × List ℕ :=
  if proj.alive then projEnemyLoop proj hit enemies else (proj, enemies, [])

/-- The phase iterated over any number of frames; each frame supplies its
own overlap predicate and enemy states (arbitrary trajectories and external
evolution), and the identities damaged by direct hits are concatenated. -/
def projFrames (proj : Projectile) :
    List ((ℕ → Bool) × List (ℕ × Enemy)) → Projectile × List ℕ
  | [] => (proj, [])
  | (hit, enemies) :: fs =>
    let r := projFrame proj hit enemies
    let rest := projFrames r.1 fs
    (rest.1, r.2.2 ++ rest.2)

theorem projEnemyLoop_cons_skip {i : ℕ} {e : Enemy} (proj : Projectile)
    (hit : ℕ → Bool) (rest : List (ℕ × Enemy))
    (h : e.dying = true ∨ i ∈ proj.hitEnemies) :
    projEnemyLoop proj hit ((i, e) :: rest)
      = ((projEnemyLoop proj hit rest).1,
         (i, e) :: (projEnemyLoop proj hit rest).2.1,
         (projEnemyLoop proj hit rest).2.2) := by
  simp only [projEnemyLoop, if_pos h]

theorem projEnemyLoop_cons_hit {i : ℕ} {e : Enemy} (proj : Projectile)
    (hit : ℕ → Bool) (rest : List (ℕ × Enemy))
    (h : ¬ (e.dying = true ∨ i ∈ proj.hitEnemies)) (h2 : hit i = true) :
    projEnemyLoop proj hit ((i, e) :: rest)
      = ((if proj.piercing then { proj with hitEnemies := i :: proj.hitEnemies }
          else { proj with alive := false }),
         (i, (e.takeDamage proj.damage).1) :: rest, [i]) := by
  simp only [projEnemyLoop, if_neg h, if_pos h2]

theorem projEnemyLoop_cons_miss {i : ℕ} {e : Enemy} (proj : Projectile)
    (hit : ℕ → Bool) (rest : List (ℕ × Enemy))
    (h : ¬ (e.dying = true ∨ i ∈ proj.hitEnemies)) (h2 : ¬ hit i = true) :
    projEnemyLoop proj hit ((i, e) :: rest)
      = ((projEnemyLoop proj hit rest).1,
         (i, e) :: (projEnemyLoop proj hit rest).2.1,
         (projEnemyLoop proj hit rest).2.2) := by
  simp only [projEnemyLoop, if_neg h, if_neg h2]

theorem projEnemyLoop_piercing (proj : Projectile) (hit : ℕ → Bool)
    (es : List (ℕ × Enemy)) :
    (projEnemyLoop proj hit es).1.piercing = proj.piercing := by
  induction es generalizing proj with
  | nil => rfl
  | cons pe rest ih =>
    obtain ⟨i, e⟩ := pe
    by_cases h1 : e.dying = true ∨ i ∈ proj.hitEnemies
    · rw [projEnemyLoop_cons_skip proj hit rest h1]
      exact ih proj
    · by_cases h2 : hit i = true
      · rw [projEnemyLoop_cons_hit proj hit rest h1 h2]
        rcases hp : proj.piercing with _ | _ <;> simp [hp]
      · rw [projEnemyLoop_cons_miss proj hit rest h1 h2]
        exact ih proj

theorem projEnemyLoop_recs (proj : Projectile) (hit : ℕ → Bool)
    (es : List (ℕ × Enemy)) (hp : proj.piercing = true) (i : ℕ)
    (hi : i ∈ (projEnemyLoop proj hit es).2.2) :
    i ∉ proj.hitEnemies ∧ i ∈ (projEnemyLoop proj hit es).1.hitEnemies
      ∧ (projEnemyLoop proj hit es).2.2 = [i] := by
  induction es generalizing proj with
  | nil => simp [projEnemyLoop] at hi
  | cons pe rest ih =>
    obtain ⟨j, e⟩ := pe
    by_cases h1 : e.dying = true ∨ j ∈ proj.hitEnemies
    · rw [projEnemyLoop_cons_skip proj hit rest h1] at hi ⊢
      exact ih proj hp hi
    · by_cases h2 : hit j = true
      · rw [projEnemyLoop_cons_hit proj hit rest h1 h2] at hi ⊢
        simp only [List.mem_singleton] at hi
        subst hi
        refine ⟨fun hmem => h1 (Or.inr hmem), ?_, rfl⟩
        rw [if_pos hp]
        simp
      · rw [projEnemyLoop_cons_miss proj hit rest h1 h2] at hi ⊢
        exact ih proj hp hi

theorem projEnemyLoop_hitEnemies_mono (proj : Projectile) (hit : ℕ → Bool)
    (es : List (ℕ × Enemy)) (i : ℕ) (hi : i ∈ proj.hitEnemies) :
    i ∈ (projEnemyLoop proj hit es).1.hitEnemies := by
  induction es generalizing proj with
  | nil => exact hi
  | cons pe rest ih =>
    obtain ⟨j, e⟩ := pe
    by_cases h1 : e.dying = true ∨ j ∈ proj.hitEnemies
    · rw [projEnemyLoop_cons_skip proj hit rest h1]
      exact ih proj hi
    · by_cases h2 : hit j = true
      · rw [projEnemyLoop_cons_hit proj hit rest h1 h2]
        rcases hp : proj.piercing with _ | _ <;> simp [hp, hi]
      · rw [projEnemyLoop_cons_miss proj hit rest h1 h2]
        exact ih proj hi

theorem projEnemyLoop_new_hits (proj : Projectile) (hit : ℕ → Bool)
    (es : List (ℕ × Enemy)) (i : ℕ)
    (hi : i ∈ (projEnemyLoop proj hit es).1.hitEnemies) :
    i ∈ proj.hitEnemies ∨ i ∈ (projEnemyLoop proj hit es).2.2 := by
  induction es generalizing proj with
  | nil => exact Or.inl hi
  | cons pe rest ih =>
    obtain ⟨j, e⟩ := pe
    by_cases h1 : e.dying = true ∨ j ∈ proj.hitEnemies
    · rw [projEnemyLoop_cons_skip proj hit rest h1] at hi ⊢
      exact ih proj hi
    · by_cases h2 : hit j = true
      · rw [projEnemyLoop_cons_hit proj hit rest h1 h2] at hi ⊢
        rcases hp : proj.piercing with _ | _
        · rw [if_neg (by simp [hp])] at hi
          exact Or.inl hi
        · rw [if_pos hp] at hi
          simp only [List.mem_cons] at hi
          rcases hi with h | h
          · exact Or.inr (by simp [h])
          · exact Or.inl h
      · rw [projEnemyLoop_cons_miss proj hit rest h1 h2] at hi ⊢
        exact ih proj hi

/-- C5: a piercing projectile with its hit-set in the freshly constructed
empty state damages any given enemy instance at most once over any number
of frames, for arbitrary per-frame trajectories and enemy states. -/
theorem c5_piercing_hits_at_most_once (proj : Projectile)
    (hp : proj.piercing = true) (h0 : proj.hitEnemies = [])
    (frames : List ((ℕ → Bool) × List (ℕ × Enemy))) (i : ℕ) :
    ((projFrames proj frames).2.count i) ≤ 1 := by
  suffices h : ∀ (frames : List ((ℕ → Bool) × List (ℕ × Enemy)))
      (q : Projectile), q.piercing = true →
      ((projFrames q frames).2.count i)
        ≤ (if i ∈ q.hitEnemies then 0 else 1) by
    have := h frames proj hp
    rw [h0] at this
    simpa using this
  intro frames
  induction frames with
  | nil =>
    intro q hq
    split <;> simp [projFrames]
  | cons f fs ih =>
    intro q hq
    obtain ⟨hit, enemies⟩ := f
    by_cases halive : q.alive = true
    · have hpk : (projEnemyLoop q hit enemies).1.piercing = true := by
        rw [projEnemyLoop_piercing]
        exact hq
      have hrest := ih (projEnemyLoop q hit enemies).1 hpk
      simp only [projFrames, projFrame, if_pos halive, List.count_append]
      by_cases hrec : i ∈ (projEnemyLoop q hit enemies).2.2
      · obtain ⟨hnotold, hnew, hsingle⟩ :=
          projEnemyLoop_recs q hit enemies hq i hrec
        rw [if_pos hnew] at hrest
        rw [if_neg hnotold, hsingle]
        simpa using hrest
      · have hzero : ((projEnemyLoop q hit enemies).2.2.count i) = 0 :=
          List.count_eq_zero.mpr hrec
        rw [hzero]
        by_cases hold : i ∈ q.hitEnemies
        · rw [if_pos hold]
          rw [if_pos (projEnemyLoop_hitEnemies_mono q hit enemies i hold)]
            at hrest
          simpa using hrest
        · rw [if_neg hold]
          by_cases hnewm : i ∈ (projEnemyLoop q hit enemies).1.hitEnemies
          · rcases projEnemyLoop_new_hits q hit enemies i hnewm with h | h
            · exact absurd h hold
            · exact absurd h hrec
          · rw [if_neg hnewm] at hrest
            simpa using hrest
    · have hq2 : q.alive = false := by simpa using halive
      simp only [projFrames, projFrame, hq2, Bool.false_eq_true, if_false,
        List.count_append]
      have hrest := ih q hq
      by_cases hold : i ∈ q.hitEnemies
      · rw [if_pos hold] at hrest ⊢
        simpa using hrest
      · rw [if_neg hold] at hrest ⊢
        simpa using hrest

/-- C5 witness: a fresh piercing projectile (the Sniper round, damage 80)
overlapping the same enemy on two consecutive frames records exactly one
direct-hit damage application. -/
theorem c5_piercing_hits_at_most_once_witness :
    ((projFrames
        { x := 0, z := 0, dirX := 0, dirZ := 1, speed := 50,
          distTraveled := 0, explosionRadius := 0, alive := true,
          damage := 80, piercing := true, explosive := false,
          hitEnemies := [] }
        [(fun _ => true, [(0, basicEnemyAt 0 0)]),
         (fun _ => true, [(0, basicEnemyAt 0 0)])]).2.count 0) ≤ 1
    ∧ ((projFrames
        { x := 0, z := 0, dirX := 0, dirZ := 1, speed := 50,
          distTraveled := 0, explosionRadius := 0, alive := true,
          damage := 80, piercing := true, explosive := false,
          hitEnemies := [] }
        [(fun _ => true, [(0, basicEnemyAt 0 0)]),
         (fun _ => true, [(0, basicEnemyAt 0 0)])]).2.count 0) = 1 := by
  constructor
  · exact c5_piercing_hits_at_most_once _ rfl rfl _ 0
  · decide
/-! ## Enemy-versus-player contact damage (src/Game.js lines 882-906)

Per-frame geometry along the quantified trajectories is supplied as
parameters: ov is the outcome of the test
distXZ(player, enemy) < PLAYER_RADIUS + enemy.radius, kb the value of
normalize(player.position - enemy.position) at knockback time, push the
value of normalize(enemy.position - player.position) after the knockback.
The last component of the state counts damage applications. -/

/-- Contact block for one enemy (src/Game.js lines 882-906): dying enemies
are skipped; when overlapping and both cooldowns elapsed, damage the
player, reset both cooldowns to ENEMY_CONTACT_COOLDOWN and knock the
player back 1.5 away from the enemy; whenever overlapping also push the
enemy 0.5 away from the player. -/
def contactStep (ov : Bool) (kb push : ℚ × ℚ) (p : Player) (e : Enemy)
    (hits : ℕ) : Player × Enemy × ℕ :=
  if e.dying then (p, e, hits)
  else if ov then
    if e.contactCooldown ≤ 0 ∧ p.contactCooldown ≤ 0 then
      ({ p.takeDamage e.damage with
           contactCooldown := ENEMY_CONTACT_COOLDOWN,
           x := (p.takeDamage e.damage).x + kb.1 * 1.5,
           z := (p.takeDamage e.damage).z + kb.2 * 1.5 },
       { e with contactCooldown := ENEMY_CONTACT_COOLDOWN,
                x := e.x + push.1 * 0.5, z := e.z + push.2 * 0.5 },
       hits + 1)
    else
      (p, { e with x := e.x + push.1 * 0.5, z := e.z + push.2 * 0.5 }, hits)
  else (p, e, hits)

/-- One frame around the contact block: Player.update (line 55) and
Enemy.update (line 107) decrement the two contact cooldowns by dt, then
updateCollisions runs the contact block — skipped entirely when the player
is dead (src/Game.js line 838). -/
def contactFrame (dt : ℚ) (ov : Bool) (kb push : ℚ × ℚ) (p : Player)
    (e : Enemy) (hits : ℕ) : Player × Enemy × ℕ :=
  let p1 := if p.alive then
      { p with contactCooldown := p.contactCooldown - dt,
               fireCooldown := p.fireCooldown - dt }
    else p
  let e1 := if e.dying then e
    else { e with contactCooldown := e.contactCooldown - dt }
  if p1.alive then contactStep ov kb push p1 e1 hits else (p1, e1, hits)

/-- Frames iterated with per-frame dt, overlap outcome and directions. -/
def contactRun : List (ℚ × Bool × (ℚ × ℚ) × (ℚ × ℚ)) →
    Player × Enemy × ℕ → Player × Enemy × ℕ
  | [], st => st
  | (dt, ov, kb, push) :: fs, st =>
    contactRun fs (contactFrame dt ov kb push st.1 st.2.1 st.2.2)

theorem Player.takeDamage_only_health (p : Player) (a : ℚ) :
    (p.takeDamage a).x = p.x ∧ (p.takeDamage a).z = p.z
    ∧ (p.takeDamage a).contactCooldown = p.contactCooldown
    ∧ (p.takeDamage a).fireCooldown = p.fireCooldown := by
  unfold Player.takeDamage
  rcases p.alive with _ | _
  · simp
  · by_cases hh : p.health - a ≤ 0 <;> simp [hh]

theorem Player.takeDamage_timers (p : Player) (a c f : ℚ) :
    ({ p with contactCooldown := c, fireCooldown := f } : Player).takeDamage a
      = { p.takeDamage a with contactCooldown := c, fireCooldown := f } := by
  unfold Player.takeDamage
  rcases hp : p.alive with _ | _
  · simp [hp]
  · by_cases hh : p.health - a ≤ 0 <;> simp [hp, hh]

/-- Damage is applied in a contact step only when both contact cooldowns
have elapsed. -/
theorem contactStep_applies_only_cooled (ov : Bool) (kb push : ℚ × ℚ)
    (p : Player) (e : Enemy) (hits : ℕ)
    (h : hits < (contactStep ov kb push p e hits).2.2) :
    e.contactCooldown ≤ 0 ∧ p.contactCooldown ≤ 0 := by
  by_cases h1 : e.dying = true
  · simp [contactStep, h1] at h
  · by_cases hov : ov = true
    · by_cases hc : e.contactCooldown ≤ 0 ∧ p.contactCooldown ≤ 0
      · exact hc
      · simp [contactStep, h1, hov, hc] at h
    · simp [contactStep, h1, hov] at h

theorem contactStep_no_apply (ov : Bool) (kb push : ℚ × ℚ) (p : Player)
    (e : Enemy) (hits : ℕ) (h : 0 < p.contactCooldown) :
    (contactStep ov kb push p e hits).2.2 = hits
    ∧ (contactStep ov kb push p e hits).1 = p := by
  by_cases h1 : e.dying = true
  · simp [contactStep, h1]
  · by_cases hov : ov = true
    · have hc : ¬ (e.contactCooldown ≤ 0 ∧ p.contactCooldown ≤ 0) := by
        intro hc
        linarith [hc.2]
      simp [contactStep, h1, hov, hc]
    · simp [contactStep, h1, hov]

theorem contactStep_apply (ov : Bool) (kb push : ℚ × ℚ) (p : Player)
    (e : Enemy) (hits : ℕ) (h1 : e.dying = false) (hov : ov = true)
    (hec : e.contactCooldown ≤ 0) (hpc : p.contactCooldown ≤ 0) :
    contactStep ov kb push p e hits
      = ({ p.takeDamage e.damage with
             contactCooldown := ENEMY_CONTACT_COOLDOWN,
             x := (p.takeDamage e.damage).x + kb.1 * 1.5,
             z := (p.takeDamage e.damage).z + kb.2 * 1.5 },
         { e with contactCooldown := ENEMY_CONTACT_COOLDOWN,
                  x := e.x + push.1 * 0.5, z := e.z + push.2 * 0.5 },
         hits + 1) := by
  simp [contactStep, h1, hov, hec, hpc]

theorem contactFrame_eq_dead (dt : ℚ) (ov : Bool) (kb push : ℚ × ℚ)
    (p : Player) (e : Enemy) (hits : ℕ) (hp : p.alive = false) :
    contactFrame dt ov kb push p e hits
      = (p, if e.dying then e
            else { e with contactCooldown := e.contactCooldown - dt }, hits) := by
  simp [contactFrame, hp]

theorem contactFrame_eq_alive (dt : ℚ) (ov : Bool) (kb push : ℚ × ℚ)
    (p : Player) (e : Enemy) (hits : ℕ) (hp : p.alive = true) :
    contactFrame dt ov kb push p e hits
      = contactStep ov kb push
          { p with contactCooldown := p.contactCooldown - dt,
                   fireCooldown := p.fireCooldown - dt }
          (if e.dying then e
           else { e with contactCooldown := e.contactCooldown - dt }) hits := by
  simp [contactFrame, hp]

/-- While the remaining frame times sum to less than the player's pending
contact cooldown, no application happens: the hit count and the player
position are unchanged (cooldowns keep decrementing, and the enemy may
still be pushed while overlapping). -/
theorem contactRun_no_apply (fs : List (ℚ × Bool × (ℚ × ℚ) × (ℚ × ℚ)))
    (st : Player × Enemy × ℕ)
    (hdts : ∀ f ∈ fs, 0 ≤ f.1)
    (hsum : (fs.map fun f => f.1).sum < st.1.contactCooldown) :
    (contactRun fs st).2.2 = st.2.2
    ∧ (contactRun fs st).1.x = st.1.x ∧ (contactRun fs st).1.z = st.1.z := by
  induction fs generalizing st with
  | nil => exact ⟨rfl, rfl, rfl⟩
  | cons f fs ih =>
    obtain ⟨dt, ov, kb, push⟩ := f
    have hdt : 0 ≤ dt := hdts (dt, ov, kb, push) (by simp)
    have hsumrest : (fs.map fun f => f.1).sum < st.1.contactCooldown - dt := by
      have : (((dt, ov, kb, push) :: fs).map fun f => f.1).sum
          = dt + (fs.map fun f => f.1).sum := by simp
      rw [this] at hsum
      linarith
    have hrun : contactRun ((dt, ov, kb, push) :: fs) st
        = contactRun fs (contactFrame dt ov kb push st.1 st.2.1 st.2.2) := rfl
    rcases hp : st.1.alive with _ | _
    · rw [hrun, contactFrame_eq_dead dt ov kb push st.1 st.2.1 st.2.2 hp]
      have := ih (st.1,
          (if st.2.1.dying then st.2.1
           else { st.2.1 with
                    contactCooldown := st.2.1.contactCooldown - dt }), st.2.2)
        (fun f hf => hdts f (by simp [hf])) (by dsimp only; linarith)
      exact this
    · have hcd : 0 < ({ st.1 with
          contactCooldown := st.1.contactCooldown - dt,
          fireCooldown := st.1.fireCooldown - dt } : Player).contactCooldown := by
        dsimp only
        have : (0:ℚ) ≤ (fs.map fun f => f.1).sum :=
          List.sum_nonneg (by
            intro q hq
            simp only [List.mem_map] at hq
            obtain ⟨f, hf, hfe⟩ := hq
            rw [← hfe]
            exact hdts f (by simp [hf]))
        linarith
      have hns := contactStep_no_apply ov kb push
        { st.1 with contactCooldown := st.1.contactCooldown - dt,
                    fireCooldown := st.1.fireCooldown - dt }
        (if st.2.1.dying then st.2.1
         else { st.2.1 with contactCooldown := st.2.1.contactCooldown - dt })
        st.2.2 hcd
      rw [hrun, contactFrame_eq_alive dt ov kb push st.1 st.2.1 st.2.2 hp]
      set stepRes := contactStep ov kb push
        { st.1 with contactCooldown := st.1.contactCooldown - dt,
                    fireCooldown := st.1.fireCooldown - dt }
        (if st.2.1.dying then st.2.1
         else { st.2.1 with contactCooldown := st.2.1.contactCooldown - dt })
        st.2.2 with hstep
      have := ih stepRes (fun f hf => hdts f (by simp [hf]))
        (by rw [hns.2]; dsimp only; linarith)
      refine ⟨?_, ?_, ?_⟩
      · rw [(Prod.mk.eta (p := stepRes)).symm] at this
        rw [this.1, hns.1]
      · rw [(Prod.mk.eta (p := stepRes)).symm] at this
        rw [this.2.1, hns.2]
      · rw [(Prod.mk.eta (p := stepRes)).symm] at this
        rw [this.2.2, hns.2]

/-- C6: with both contact cooldowns elapsed, a player and a non-dying enemy
overlapping on an arbitrary run of consecutive frames whose times past the
first sum to less than the cooldown produce exactly one contact-damage
application: it happens on the first frame, resets both cooldowns to
ENEMY_CONTACT_COOLDOWN, and displaces the player by exactly the fixed
knockback 1.5 along the supplied away direction; moreover an application
can only ever happen with both cooldowns elapsed. -/
theorem c6_contact_damage_once (p : Player) (e : Enemy) (dt1 : ℚ)
    (kb1 push1 : ℚ × ℚ) (rest : List (ℚ × Bool × (ℚ × ℚ) × (ℚ × ℚ)))
    (hp : p.alive = true) (he : e.dying = false)
    (hpc : p.contactCooldown ≤ 0) (hec : e.contactCooldown ≤ 0)
    (hdt1 : 0 ≤ dt1) (hdts : ∀ f ∈ rest, 0 ≤ f.1)
    (hsum : (rest.map fun f => f.1).sum < ENEMY_CONTACT_COOLDOWN) :
    (contactRun ((dt1, true, kb1, push1) :: rest) (p, e, 0)).2.2 = 1
    ∧ (contactRun ((dt1, true, kb1, push1) :: rest) (p, e, 0)).1.x
        = p.x + kb1.1 * 1.5
    ∧ (contactRun ((dt1, true, kb1, push1) :: rest) (p, e, 0)).1.z
        = p.z + kb1.2 * 1.5
    ∧ (contactFrame dt1 true kb1 push1 p e 0).1.contactCooldown
        = ENEMY_CONTACT_COOLDOWN
    ∧ (contactFrame dt1 true kb1 push1 p e 0).2.1.contactCooldown
        = ENEMY_CONTACT_COOLDOWN
    ∧ (∀ (ov : Bool) (kb push : ℚ × ℚ) (q : Player) (en : Enemy) (hits : ℕ),
        hits < (contactStep ov kb push q en hits).2.2 →
        en.contactCooldown ≤ 0 ∧ q.contactCooldown ≤ 0) := by
  set pMid : Player := { p with contactCooldown := p.contactCooldown - dt1,
                                fireCooldown := p.fireCooldown - dt1 } with hpMid
  set eMid : Enemy := { e with contactCooldown := e.contactCooldown - dt1 }
    with heMid
  have hframe : contactFrame dt1 true kb1 push1 p e 0
      = ({ pMid.takeDamage eMid.damage with
             contactCooldown := ENEMY_CONTACT_COOLDOWN,
             x := (pMid.takeDamage eMid.damage).x + kb1.1 * 1.5,
             z := (pMid.takeDamage eMid.damage).z + kb1.2 * 1.5 },
         { eMid with contactCooldown := ENEMY_CONTACT_COOLDOWN,
                     x := eMid.x + push1.1 * 0.5,
                     z := eMid.z + push1.2 * 0.5 },
         1) := by
    rw [contactFrame_eq_alive dt1 true kb1 push1 p e 0 hp]
    rw [if_neg (by simp [he])]
    rw [← hpMid, ← heMid]
    exact contactStep_apply true kb1 push1 pMid eMid 0
      (by rw [heMid]; exact he) rfl
      (by rw [heMid]; dsimp only; linarith)
      (by rw [hpMid]; dsimp only; linarith)
  have hpx : (pMid.takeDamage eMid.damage).x = p.x := by
    rw [(Player.takeDamage_only_health pMid eMid.damage).1, hpMid]
  have hpz : (pMid.takeDamage eMid.damage).z = p.z := by
    rw [(Player.takeDamage_only_health pMid eMid.damage).2.1, hpMid]
  have hrun : contactRun ((dt1, true, kb1, push1) :: rest) (p, e, 0)
      = contactRun rest (contactFrame dt1 true kb1 push1 p e 0) := rfl
  have hrest := contactRun_no_apply rest (contactFrame dt1 true kb1 push1 p e 0)
    hdts (by rw [hframe]; dsimp only; exact hsum)
  refine ⟨?_, ?_, ?_, ?_, ?_, contactStep_applies_only_cooled⟩
  · rw [hrun, hrest.1, hframe]
  · rw [hrun, hrest.2.1, hframe]
    dsimp only
    rw [hpx]
  · rw [hrun, hrest.2.2, hframe]
    dsimp only
    rw [hpz]
  · rw [hframe]
  · rw [hframe]

/-- C6 witness: the specification scenario — player and enemy overlapping
on three consecutive frames of 0.1 seconds, cooldowns initially elapsed:
exactly one application. -/
theorem c6_contact_damage_once_witness :
    (contactRun [(0.1, true, (1, 0), (-1, 0)), (0.1, true, (1, 0), (-1, 0)),
        (0.1, true, (1, 0), (-1, 0))]
      (playerInit, basicEnemyAt 1 0, 0)).2.2 = 1 :=
  (c6_contact_damage_once playerInit (basicEnemyAt 1 0) 0.1 (1, 0) (-1, 0)
    [(0.1, true, (1, 0), (-1, 0)), (0.1, true, (1, 0), (-1, 0))]
    rfl rfl (by norm_num [playerInit]) (by norm_num [basicEnemyAt])
    (by norm_num)
    (by
      intro f hf
      simp only [List.mem_cons, List.not_mem_nil, or_false] at hf
      rcases hf with h | h <;> rw [h] <;> norm_num)
    (by norm_num [ENEMY_CONTACT_COOLDOWN])).1

/-! ## Exploding barrels (src/ExplodingBarrel.js, src/Game.js) -/

/-- Simulation fields of the ExplodingBarrel class. -/
structure ExplodingBarrel where
  x : ℚ
  z : ℚ
  radius : ℚ
  alive : Bool
deriving DecidableEq, Repr

/-- ExplodingBarrel.explode (src/ExplodingBarrel.js lines 17-40), with each
enemy and the player paired with its own planar distance to the barrel
center: no-op when already dead; otherwise marks the barrel dead and
applies the barrel area damage of barrelExplodeEnemy and
barrelExplodePlayer to every enemy and to the player. -/
def ExplodingBarrel.explode (b : ExplodingBarrel)
    (enemies : List (Enemy × ℚ)) (player : Player × ℚ) :
    ExplodingBarrel × List Enemy × Player :=
  if b.alive = false then (b, enemies.map Prod.fst, player.1)
  else
    ({ b with alive := false },
     enemies.map (fun ed => barrelExplodeEnemy ed.1 ed.2),
     barrelExplodePlayer player.1 player.2)

/-- Inner loop of the projectile-versus-barrel phase (src/Game.js lines
869-878) for one projectile, barrels identified by index and the overlap
test distXZ < PROJECTILE_RADIUS + barrel.radius supplied as a predicate:
dead barrels are skipped; the first overlapping alive barrel detonates (its
alive flag drops via the explode guard; the detonation area damage is the
ExplodingBarrel.explode resolution), the projectile deactivates and the
scan stops.  Returns the projectile alive flag, the barrels and the index
detonated, if any. -/
def projBarrelScan (projAlive : Bool) (hit : ℕ → Bool) :
    List (ℕ × ExplodingBarrel) → Bool × List (ℕ × ExplodingBarrel) × Option ℕ
  | [] => (projAlive, [], none)
  | (i, b) :: rest =>
    if b.alive = false then
      let r := projBarrelScan projAlive hit rest
      (r.1, (i, b) :: r.2.1, r.2.2)
    else if hit i then
      (false, (i, { b with alive := false }) :: rest, some i)
    else
      let r := projBarrelScan projAlive hit rest
      (r.1, (i, b) :: r.2.1, r.2.2)

/-- The phase runs only for a still-active projectile (src/Game.js line
868). -/
def projBarrelPhase (projAlive : Bool) (hit : ℕ → Bool)
    (barrels : List (ℕ × ExplodingBarrel)) :
    Bool × List (ℕ × ExplodingBarrel) × Option ℕ :=
  if projAlive then projBarrelScan projAlive hit barrels
  else (projAlive, barrels, none)

/-- A static cover collider (src/Game.js buildArena). -/
structure CoverCollider where
  x : ℚ
  z : ℚ
  radius : ℚ
deriving DecidableEq, Repr

/-- The skip test of the cover push-out pass (src/Game.js lines 929-930):
the first barrel whose position equals the collider position, when dead,
excludes the collider. -/
def coverColliderSkipped (barrels : List ExplodingBarrel) (cx cz : ℚ) :
    Bool :=
  match barrels.find? (fun b => b.x == cx && b.z == cz) with
  | some b => !b.alive
  | none => false

/-- Push-out of one entity by one collider (src/Game.js lines 932-948):
below combined radii, displace directly away from the collider center by
the overlap amount. -/
def coverPushEntity (sq : ℚ → ℚ) (ex ez eradius cx cz cradius : ℚ) :
    ℚ × ℚ :=
  let pd := distXZ sq (ex, ez) (cx, cz)
  if pd < eradius + cradius then
    let pushDir := jsNormalize sq (ex - cx, ez - cz)
    (ex + pushDir.1 * (eradius + cradius - pd),
     ez + pushDir.2 * (eradius + cradius - pd))
  else (ex, ez)

/-- One collider of the cover push-out pass (src/Game.js lines 928-950):
skipped entirely when its matching barrel is dead, otherwise pushes the
player and every non-dying enemy out of overlap. -/
def coverColliderStep (sq : ℚ → ℚ) (barrels : List ExplodingBarrel)
    (c : CoverCollider) (p : Player) (enemies : List Enemy) :
    Player × List Enemy :=
  if coverColliderSkipped barrels c.x c.z then (p, enemies)
  else
    let pp := coverPushEntity sq p.x p.z PLAYER_RADIUS c.x c.z c.radius
    (({ p with x := pp.1, z := pp.2 }),
     enemies.map (fun e =>
       if e.dying then e
       else
         let ep := coverPushEntity sq e.x e.z e.radius c.x c.z c.radius
         { e with x := ep.1, z := ep.2 }))

theorem projBarrelScan_all_dead (projAlive : Bool) (hit : ℕ → Bool)
    (barrels : List (ℕ × ExplodingBarrel))
    (hdead : ∀ ib ∈ barrels, ib.2.alive = false) :
    projBarrelScan projAlive hit barrels = (projAlive, barrels, none) := by
  induction barrels with
  | nil => rfl
  | cons ib rest ih =>
    obtain ⟨i, b⟩ := ib
    have hb : b.alive = false := hdead (i, b) (by simp)
    simp only [projBarrelScan, if_pos hb,
      ih (fun jb hjb => hdead jb (by simp [hjb]))]

theorem projBarrelScan_detonates_alive (projAlive : Bool) (hit : ℕ → Bool)
    (barrels : List (ℕ × ExplodingBarrel)) (i : ℕ)
    (h : (projBarrelScan projAlive hit barrels).2.2 = some i) :
    ∃ b, (i, b) ∈ barrels ∧ b.alive = true := by
  induction barrels with
  | nil => simp [projBarrelScan] at h
  | cons ib rest ih =>
    obtain ⟨j, b⟩ := ib
    by_cases hb : b.alive = false
    · simp only [projBarrelScan, if_pos hb] at h
      obtain ⟨b2, hmem, hal⟩ := ih h
      exact ⟨b2, by simp [hmem], hal⟩
    · have hb2 : b.alive = true := by simpa using hb
      have hcond : ¬ (b.alive = false) := by simp [hb2]
      by_cases hh : hit j = true
      · simp only [projBarrelScan, if_neg hcond, if_pos hh] at h
        obtain rfl : j = i := by simpa using h
        exact ⟨b, by simp, hb2⟩
      · simp only [projBarrelScan, if_neg hcond, if_neg hh] at h
        obtain ⟨b2, hmem, hal⟩ := ih h
        exact ⟨b2, by simp [hmem], hal⟩

/-- C7: explode is idempotent-guarded and dead barrels are excluded from
both collision passes — (i) called on a dead barrel, explode changes no
state and deals no damage; (ii) after any explode call the barrel is dead,
so a second call is a no-op; (iii) a first call on a live barrel marks it
dead and applies exactly the barrel area damage to every enemy and the
player; (iv) a projectile scan over barrels that are all dead leaves the
projectile and the barrels untouched and detonates nothing, and any
detonation it does report comes from a barrel that was alive; (v) a cover
collider whose position-matched barrel is dead pushes neither the player
nor any enemy. -/
theorem c7_explode_idempotent_and_exclusion :
    (∀ (b : ExplodingBarrel) (es : List (Enemy × ℚ)) (pl : Player × ℚ),
      b.alive = false →
      ExplodingBarrel.explode b es pl = (b, es.map Prod.fst, pl.1))
    ∧ (∀ (b : ExplodingBarrel) (es : List (Enemy × ℚ)) (pl : Player × ℚ),
        (ExplodingBarrel.explode b es pl).1.alive = false)
    ∧ (∀ (b : ExplodingBarrel) (es : List (Enemy × ℚ)) (pl : Player × ℚ),
        b.alive = true →
        ExplodingBarrel.explode b es pl
          = ({ b with alive := false },
             es.map (fun ed => barrelExplodeEnemy ed.1 ed.2),
             barrelExplodePlayer pl.1 pl.2))
    ∧ (∀ (projAlive : Bool) (hit : ℕ → Bool)
          (barrels : List (ℕ × ExplodingBarrel)),
        (∀ ib ∈ barrels, ib.2.alive = false) →
        projBarrelPhase projAlive hit barrels = (projAlive, barrels, none))
    ∧ (∀ (projAlive : Bool) (hit : ℕ → Bool)
          (barrels : List (ℕ × ExplodingBarrel)) (i : ℕ),
        (projBarrelPhase projAlive hit barrels).2.2 = some i →
        ∃ b, (i, b) ∈ barrels ∧ b.alive = true)
    ∧ (∀ (sq : ℚ → ℚ) (barrels : List ExplodingBarrel) (c : CoverCollider)
          (p : Player) (enemies : List Enemy),
        coverColliderSkipped barrels c.x c.z = true →
        coverColliderStep sq barrels c p enemies = (p, enemies)) := by
  refine ⟨?_, ?_, ?_, ?_, ?_, ?_⟩
  · intro b es pl hb
    simp [ExplodingBarrel.explode, hb]
  · intro b es pl
    rcases hb : b.alive with _ | _
    · simp [ExplodingBarrel.explode, hb]
    · simp [ExplodingBarrel.explode, hb]
  · intro b es pl hb
    simp [ExplodingBarrel.explode, hb]
  · intro projAlive hit barrels hdead
    unfold projBarrelPhase
    rcases projAlive with _ | _
    · rfl
    · simpa using projBarrelScan_all_dead true hit barrels hdead
  · intro projAlive hit barrels i h
    unfold projBarrelPhase at h
    rcases projAlive with _ | _
    · simp at h
    · exact projBarrelScan_detonates_alive true hit barrels i (by simpa using h)
  · intro sq barrels c p enemies hskip
    simp [coverColliderStep, hskip]

/-- C7 witness: a dead barrel at the origin — explode is a no-op on it, a
projectile scan over it alone changes nothing, and the collider at its
position pushes nobody even when the player overlaps it. -/
theorem c7_explode_idempotent_and_exclusion_witness :
    (ExplodingBarrel.explode
        { x := 0, z := 0, radius := BARREL_RADIUS, alive := false }
        [(basicEnemyAt 1 0, 1)] (playerInit, 1))
      = ({ x := 0, z := 0, radius := BARREL_RADIUS, alive := false },
         [basicEnemyAt 1 0], playerInit)
    ∧ projBarrelPhase true (fun _ => true)
        [(0, { x := 0, z := 0, radius := BARREL_RADIUS, alive := false })]
      = (true,
         [(0, { x := 0, z := 0, radius := BARREL_RADIUS, alive := false })],
         none)
    ∧ coverColliderStep ratSqrt
        [{ x := 0, z := 0, radius := BARREL_RADIUS, alive := false }]
        { x := 0, z := 0, radius := BARREL_RADIUS } playerInit
        [basicEnemyAt 1 0]
      = (playerInit, [basicEnemyAt 1 0]) := by
  refine ⟨c7_explode_idempotent_and_exclusion.1 _ _ _ rfl,
    c7_explode_idempotent_and_exclusion.2.2.2.1 true (fun _ => true) _ ?_,
    c7_explode_idempotent_and_exclusion.2.2.2.2.2 ratSqrt _ _ _ _ ?_⟩
  · intro ib hib
    simp only [List.mem_singleton] at hib
    rw [hib]
  · decide


/-! ## Steering, movement and arena clamping
(src/Enemy.js Enemy.update lines 48-110, src/Player.js Player.update
lines 52-77)

The aim-smoothing and animation of Player.update (lines 67-76) and the
facing rotation of Enemy.update (line 88) only drive rendering state and
are not modelled; the input provider's pre-normalized move direction is
passed as an Option (none when not moving). -/

/-- Arena clamp, as in src/Enemy.js lines 103-105 and src/Player.js lines
63-65. -/
def clampArena (radius : ℚ) (pos : ℚ × ℚ) : ℚ × ℚ :=
  let h := ARENA_HALF - radius
  (max (-h) (min h pos.1), max (-h) (min h pos.2))

/-- Steering direction of Enemy.update (src/Enemy.js lines 60-84) once the
distance guard has passed: the normalized pursuit vector, bent by the
role-specific blends, with the circler's orbit angle accumulation; dist is
the planar distance to the player computed by the caller. -/
def enemySteerDir (sq : ℚ → ℚ) (e : Enemy) (px pz dt dist : ℚ) :
    (ℚ × ℚ) × ℚ :=
  let d0 := jsNormalize sq (px - e.x, pz - e.z)
  match e.role with
  | .rusher => (d0, e.orbitAngle)
  | .flanker =>
    if dist < 4 then (d0, e.orbitAngle)
    else
      let perpX := d0.2 * e.flankerSide
      let perpZ := -d0.1 * e.flankerSide
      (jsNormalize sq (d0.1 * 0.6 + perpX * 0.4, d0.2 * 0.6 + perpZ * 0.4),
       e.orbitAngle)
  | .circler =>
    if dist < 4 ∨ e.health < e.maxHealth then (d0, e.orbitAngle)
    else
      let radialForce := max 0.1 ((dist - 7) / 7)
      let tangentX := -d0.2
      let tangentZ := d0.1
      (jsNormalize sq (d0.1 * radialForce + tangentX * 0.7,
                       d0.2 * radialForce + tangentZ * 0.7),
       e.orbitAngle + dt * 1.5)

/-- Pursuit movement of Enemy.update (src/Enemy.js lines 56-89): position
advances along the steering direction only when the planar distance to the
player exceeds 0.1. -/
def enemyMove (sq : ℚ → ℚ) (e : Enemy) (px pz dt : ℚ) : Enemy :=
  let dx := px - e.x
  let dz := pz - e.z
  let dist := sq (dx * dx + dz * dz)
  if dist > 0.1 then
    let sd := enemySteerDir sq e px pz dt dist
    { e with x := e.x + sd.1.1 * e.speed * dt,
             z := e.z + sd.1.2 * e.speed * dt,
             orbitAngle := sd.2 }
  else e

/-- One pairwise separation interaction (src/Enemy.js lines 91-101); the
caller passes the other enemies, the identity skip of the source loop
having excluded the enemy itself. -/
def enemySepStep (sq : ℚ → ℚ) (dt : ℚ) (pos : ℚ × ℚ) (other : Enemy) :
    ℚ × ℚ :=
  if other.dying then pos
  else
    let dx := pos.1 - other.x
    let dz := pos.2 - other.z
    let d := sq (dx * dx + dz * dz)
    if d < ENEMY_SEPARATION ∧ d > 0.01 then
      let push := (ENEMY_SEPARATION - d) * ENEMY_SEP_FORCE * dt / d
      (pos.1 + dx * push, pos.2 + dz * push)
    else pos

/-- Enemy.update (src/Enemy.js lines 48-110): a dying enemy only counts
down its death timer and reports removal; otherwise pursuit movement, the
pairwise separation fold, the arena clamp and the contact-cooldown
decrement.  The returned flag is the removal signal. -/
def Enemy.update (sq : ℚ → ℚ) (e : Enemy) (px pz dt : ℚ)
    (others : List Enemy) : Enemy × Bool :=
  if e.dying then
    let e1 := { e with deathTimer := e.deathTimer - dt }
    (e1, decide (e1.deathTimer ≤ 0))
  else
    let moved := enemyMove sq e px pz dt
    let sep := others.foldl (fun pos o => enemySepStep sq dt pos o)
      (moved.x, moved.z)
    let cl := clampArena e.radius sep
    ({ moved with x := cl.1, z := cl.2,
                  contactCooldown := moved.contactCooldown - dt }, false)

/-- Player.update (src/Player.js lines 52-77): no-op when dead; cooldown
decrements, optional movement along the input direction, arena clamp. -/
def Player.update (p : Player) (dt : ℚ) (moveDir : Option (ℚ × ℚ)) :
    Player :=
  if p.alive = false then p
  else
    let p1 := { p with fireCooldown := p.fireCooldown - dt,
                       contactCooldown := p.contactCooldown - dt }
    let p2 := match moveDir with
      | some d => { p1 with x := p1.x + d.1 * PLAYER_SPEED * dt,
                            z := p1.z + d.2 * PLAYER_SPEED * dt }
      | none => p1
    let cl := clampArena PLAYER_RADIUS (p2.x, p2.z)
    { p2 with x := cl.1, z := cl.2 }

/-! ### Division-checked replicas for the steering arithmetic (claim C10)

Each replica returns none whenever a division with zero divisor would be
evaluated, and is otherwise identical to the function above. -/

/-- jsNormalize with its division checked. -/
def jsNormalizeChecked (sq : ℚ → ℚ) (v : ℚ × ℚ) : Option (ℚ × ℚ) :=
  let len := sq (v.1 * v.1 + v.2 * v.2)
  let l := if len = 0 then 1 else len
  if l = 0 then none else some (v.1 / l, v.2 / l)

/-- enemySteerDir with every division checked (the circler's radial force
divides by the constant target distance 7). -/
def enemySteerDirChecked (sq : ℚ → ℚ) (e : Enemy) (px pz dt dist : ℚ) :
    Option ((ℚ × ℚ) × ℚ) := do
  let d0 ← jsNormalizeChecked sq (px - e.x, pz - e.z)
  match e.role with
  | .rusher => pure (d0, e.orbitAngle)
  | .flanker =>
    if dist < 4 then pure (d0, e.orbitAngle)
    else do
      let perpX := d0.2 * e.flankerSide
      let perpZ := -d0.1 * e.flankerSide
      let d1 ← jsNormalizeChecked sq
        (d0.1 * 0.6 + perpX * 0.4, d0.2 * 0.6 + perpZ * 0.4)
      pure (d1, e.orbitAngle)
  | .circler =>
    if dist < 4 ∨ e.health < e.maxHealth then pure (d0, e.orbitAngle)
    else do
      if (7 : ℚ) = 0 then none
      else
        let radialForce := max 0.1 ((dist - 7) / 7)
        let tangentX := -d0.2
        let tangentZ := d0.1
        let d1 ← jsNormalizeChecked sq
          (d0.1 * radialForce + tangentX * 0.7,
           d0.2 * radialForce + tangentZ * 0.7)
        pure (d1, e.orbitAngle + dt * 1.5)

/-- enemyMove with every division checked. -/
def enemyMoveChecked (sq : ℚ → ℚ) (e : Enemy) (px pz dt : ℚ) :
    Option Enemy :=
  let dx := px - e.x
  let dz := pz - e.z
  let dist := sq (dx * dx + dz * dz)
  if dist > 0.1 then do
    let sd ← enemySteerDirChecked sq e px pz dt dist
    pure { e with x := e.x + sd.1.1 * e.speed * dt,
                  z := e.z + sd.1.2 * e.speed * dt,
                  orbitAngle := sd.2 }
  else pure e

/-- enemySepStep with its division checked. -/
def enemySepStepChecked (sq : ℚ → ℚ) (dt : ℚ) (pos : ℚ × ℚ)
    (other : Enemy) : Option (ℚ × ℚ) :=
  if other.dying then some pos
  else
    let dx := pos.1 - other.x
    let dz := pos.2 - other.z
    let d := sq (dx * dx + dz * dz)
    if d < ENEMY_SEPARATION ∧ d > 0.01 then
      if d = 0 then none
      else
        let push := (ENEMY_SEPARATION - d) * ENEMY_SEP_FORCE * dt / d
        some (pos.1 + dx * push, pos.2 + dz * push)
    else some pos

/-- Enemy.update with every division checked. -/
def Enemy.updateChecked (sq : ℚ → ℚ) (e : Enemy) (px pz dt : ℚ)
    (others : List Enemy) : Option (Enemy × Bool) :=
  if e.dying then
    let e1 := { e with deathTimer := e.deathTimer - dt }
    some (e1, decide (e1.deathTimer ≤ 0))
  else do
    let moved ← enemyMoveChecked sq e px pz dt
    let sep ← others.foldlM (fun pos o => enemySepStepChecked sq dt pos o)
      (moved.x, moved.z)
    let cl := clampArena e.radius sep
    pure ({ moved with x := cl.1, z := cl.2,
                       contactCooldown := moved.contactCooldown - dt }, false)

theorem jsNormalizeChecked_eq (sq : ℚ → ℚ) (v : ℚ × ℚ) :
    jsNormalizeChecked sq v = some (jsNormalize sq v) := by
  unfold jsNormalizeChecked jsNormalize
  dsimp only
  by_cases h : sq (v.1 * v.1 + v.2 * v.2) = 0
  · simp [h]
  · simp [h]

theorem enemySteerDirChecked_eq (sq : ℚ → ℚ) (e : Enemy)
    (px pz dt dist : ℚ) :
    enemySteerDirChecked sq e px pz dt dist
      = some (enemySteerDir sq e px pz dt dist) := by
  unfold enemySteerDirChecked enemySteerDir
  rw [jsNormalizeChecked_eq]
  rcases e.role with _ | _ | _
  · rfl
  · by_cases h : dist < 4
    · simp [h]
    · simp [h, jsNormalizeChecked_eq]
  · by_cases h : dist < 4 ∨ e.health < e.maxHealth
    · simp [h]
    · simp [h, jsNormalizeChecked_eq]

theorem enemyMoveChecked_eq (sq : ℚ → ℚ) (e : Enemy) (px pz dt : ℚ) :
    enemyMoveChecked sq e px pz dt = some (enemyMove sq e px pz dt) := by
  unfold enemyMoveChecked enemyMove
  by_cases h : sq ((px - e.x) * (px - e.x) + (pz - e.z) * (pz - e.z)) > 0.1
  · simp only [if_pos h, enemySteerDirChecked_eq]
    rfl
  · simp only [if_neg h]
    rfl

theorem enemySepStepChecked_eq (sq : ℚ → ℚ) (dt : ℚ) (pos : ℚ × ℚ)
    (other : Enemy) :
    enemySepStepChecked sq dt pos other
      = some (enemySepStep sq dt pos other) := by
  unfold enemySepStepChecked enemySepStep
  by_cases h1 : other.dying = true
  · simp [h1]
  · set d := sq ((pos.1 - other.x) * (pos.1 - other.x)
      + (pos.2 - other.z) * (pos.2 - other.z)) with hd
    by_cases h2 : d < ENEMY_SEPARATION ∧ d > 0.01
    · have hdz : ¬ d = 0 := by
        intro h0
        rw [h0] at h2
        norm_num at h2
      simp [h1, h2, hdz]
    · simp [h1, h2]

/-- C10: the steering arithmetic of Enemy.update never divides by zero —
the division-checked replica always succeeds and agrees with the model, for
every square-root function, every state and every set of neighbours.
Moreover the pursuit movement fires only when the planar distance to the
player exceeds 0.1, and a separation push leaves the position unchanged
unless the pair distance lies strictly between 0.01 and the separation
radius. -/
theorem c10_no_division_by_zero :
    (∀ (sq : ℚ → ℚ) (e : Enemy) (px pz dt : ℚ) (others : List Enemy),
      Enemy.updateChecked sq e px pz dt others
        = some (Enemy.update sq e px pz dt others))
    ∧ (∀ (sq : ℚ → ℚ) (v : ℚ × ℚ),
        jsNormalizeChecked sq v = some (jsNormalize sq v))
    ∧ (∀ (sq : ℚ → ℚ) (e : Enemy) (px pz dt : ℚ),
        ¬ (sq ((px - e.x) * (px - e.x) + (pz - e.z) * (pz - e.z)) > 0.1) →
        enemyMove sq e px pz dt = e)
    ∧ (∀ (sq : ℚ → ℚ) (dt : ℚ) (pos : ℚ × ℚ) (other : Enemy),
        other.dying = false →
        ¬ (sq ((pos.1 - other.x) * (pos.1 - other.x)
              + (pos.2 - other.z) * (pos.2 - other.z)) < ENEMY_SEPARATION
           ∧ sq ((pos.1 - other.x) * (pos.1 - other.x)
              + (pos.2 - other.z) * (pos.2 - other.z)) > 0.01) →
        enemySepStep sq dt pos other = pos) := by
  refine ⟨?_, jsNormalizeChecked_eq, ?_, ?_⟩
  · intro sq e px pz dt others
    unfold Enemy.updateChecked Enemy.update
    by_cases h1 : e.dying = true
    · simp [h1]
    · simp only [h1, Bool.false_eq_true, if_false, enemyMoveChecked_eq,
        Option.bind_eq_bind, Option.some_bind]
      have hfold : ∀ (pos : ℚ × ℚ),
          others.foldlM (fun pos o => enemySepStepChecked sq dt pos o) pos
            = some (others.foldl (fun pos o => enemySepStep sq dt pos o) pos) := by
        induction others with
        | nil => intro pos; rfl
        | cons o os ih =>
          intro pos
          have h1 : (o :: os).foldlM
              (fun pos o => enemySepStepChecked sq dt pos o) pos
              = (enemySepStepChecked sq dt pos o >>= fun q =>
                  os.foldlM (fun pos o => enemySepStepChecked sq dt pos o) q) :=
            rfl
          rw [h1, enemySepStepChecked_eq]
          exact ih _
      rw [hfold]
      rfl
  · intro sq e px pz dt h
    unfold enemyMove
    rw [if_neg h]
  · intro sq dt pos other h1 h2
    unfold enemySepStep
    rw [if_neg (by simp [h1])]
    simp only [if_neg h2]

/-- C2 (amended): immediately after the per-entity update phase of a tick —
Enemy.update for every non-dying enemy and Player.update for the live
player — positions are clamped, so the center lies within the arena
half-extent minus the entity radius on both axes, for every square-root
function and every input. -/
theorem c2_bounds_after_update :
    (∀ (sq : ℚ → ℚ) (e : Enemy) (px pz dt : ℚ) (others : List Enemy),
      e.dying = false → e.radius ≤ ARENA_HALF →
      |(Enemy.update sq e px pz dt others).1.x| ≤ ARENA_HALF - e.radius
      ∧ |(Enemy.update sq e px pz dt others).1.z| ≤ ARENA_HALF - e.radius)
    ∧ (∀ (p : Player) (dt : ℚ) (md : Option (ℚ × ℚ)), p.alive = true →
        |(Player.update p dt md).x| ≤ ARENA_HALF - PLAYER_RADIUS
        ∧ |(Player.update p dt md).z| ≤ ARENA_HALF - PLAYER_RADIUS) := by
  have hclamp : ∀ (radius : ℚ) (pos : ℚ × ℚ), radius ≤ ARENA_HALF →
      |(clampArena radius pos).1| ≤ ARENA_HALF - radius
      ∧ |(clampArena radius pos).2| ≤ ARENA_HALF - radius := by
    intro radius pos h
    have h0 : (0 : ℚ) ≤ ARENA_HALF - radius := by linarith
    constructor <;>
      refine abs_le.mpr ⟨le_max_left _ _, max_le ?_ ?_⟩ <;>
      first
        | exact min_le_left _ _
        | linarith
  constructor
  · intro sq e px pz dt others hd hr
    unfold Enemy.update
    rw [if_neg (by simp [hd])]
    exact hclamp e.radius _ hr
  · intro p dt md hp
    unfold Player.update
    rw [if_neg (by simp [hp])]
    exact hclamp PLAYER_RADIUS _ (by norm_num [PLAYER_RADIUS, ARENA_HALF])

/-- C2 amended-claim witness: a concrete non-dying rusher beside the player
and the live player itself respect the bound right after their updates. -/
theorem c2_bounds_after_update_witness :
    |(Enemy.update ratSqrt (basicEnemyAt 26.5 0) 27.4 0 0.01 []).1.x|
      ≤ ARENA_HALF - (basicEnemyAt 26.5 0).radius
    ∧ |(playerInit.update 0.01 none).x| ≤ ARENA_HALF - PLAYER_RADIUS := by
  constructor
  · exact (c2_bounds_after_update.1 ratSqrt (basicEnemyAt 26.5 0) 27.4 0 0.01 []
      rfl (by norm_num [basicEnemyAt, ARENA_HALF])).1
  · exact (c2_bounds_after_update.2 playerInit 0.01 none rfl).1


/-- C10 witness: the checked update agrees with the model on a concrete
enemy, and the movement and separation guards hold at concrete inputs
whose distances fall outside the guard windows. -/
theorem c10_no_division_by_zero_witness :
    Enemy.updateChecked ratSqrt (basicEnemyAt 26.5 0) 27.4 0 0.01 []
      = some (Enemy.update ratSqrt (basicEnemyAt 26.5 0) 27.4 0 0.01 [])
    ∧ enemyMove (fun _ => 0) (basicEnemyAt 5 5) 5 5 0.01 = basicEnemyAt 5 5
    ∧ enemySepStep (fun _ => 3) 0.01 (0, 0) (basicEnemyAt 1 0) = (0, 0) := by
  refine ⟨c10_no_division_by_zero.1 ratSqrt (basicEnemyAt 26.5 0) 27.4 0 0.01 [],
    c10_no_division_by_zero.2.2.1 (fun _ => 0) (basicEnemyAt 5 5) 5 5 0.01
      (by norm_num),
    c10_no_division_by_zero.2.2.2 (fun _ => 3) 0.01 (0, 0) (basicEnemyAt 1 0)
      rfl (by norm_num [ENEMY_SEPARATION])⟩

/-! ## The orchestrator tick (src/Game.js)

The full per-frame simulation of the PLAYING and GAME_OVER states
(src/Game.js lines 1036-1149 and the collision engine lines 836-951),
assembled from the phase models above.  Enemies are carried as
(identity, state) pairs — the JavaScript collections hold object
references, modelled by identities that survive removal.  Rendering,
camera, HUD, particles, audio and the pickup bob animation (which never
moves a pickup on the plane) are external.  Math.random derived inputs are
oracle parameters: pelletDirs supplies the fired pellet directions
(aim heading plus random spread) and spawned the enemy built on a SPAWN
event. -/

def SCORE_PER_KILL : ℚ := 100
def STREAK_TIME : ℚ := 2.5

/-- Orchestrator states that run the gameplay tick; the remaining states of
the source (LOADING, cinematics, transition) render only. -/
inductive GState
  | PLAYING
  | GAME_OVER
  | LEVEL_TRANSITION
  | VICTORY_CINEMATIC
deriving DecidableEq, Repr

/-- Score, streak and slow-motion bookkeeping fields of Game. -/
structure ScoreCtx where
  totalKills : ℕ
  streakTimer : ℚ
  score : ℤ
  multiplier : ℚ
  timeScale : ℚ
  slowMoTimer : ℚ
deriving DecidableEq, Repr

/-- Pickup kinds (src/Pickup.js). -/
inductive PickupKind
  | health
  | weapon
deriving DecidableEq, Repr

/-- Collision-relevant fields of a pickup. -/
structure PickupItem where
  x : ℚ
  z : ℚ
  kind : PickupKind
  weaponKey : WeaponName
deriving DecidableEq, Repr

/-- One row of CONFIG.WEAPONS (src/config.js lines 6-13);
explosionRadius is 0 where the table omits it, as in the projectile
constructor default. -/
structure WeaponStats where
  fireRate : ℚ
  damage : ℚ
  spread : ℚ
  speed : ℚ
  count : ℕ
  piercing : Bool
  explosive : Bool
  explosionRadius : ℚ
deriving DecidableEq, Repr

/-- CONFIG.WEAPONS. -/
def WEAPONS : WeaponName → WeaponStats
  | .Pistol => ⟨0.3, 15, 0, 30, 1, false, false, 0⟩
  | .Shotgun => ⟨0.8, 12, 0.15, 25, 5, false, false, 0⟩
  | .AK => ⟨0.15, 20, 0.03, 35, 1, false, false, 0⟩
  | .SMG => ⟨0.08, 8, 0.05, 30, 1, false, false, 0⟩
  | .Sniper => ⟨1.2, 80, 0, 50, 1, true, false, 0⟩
  | .RocketLauncher => ⟨1.5, 60, 0, 20, 1, false, true, 5⟩

/-- Player.setWeapon (src/Player.js lines 36-40; mesh visibility is
external). -/
def Player.setWeapon (p : Player) (w : WeaponName) : Player :=
  { p with currentWeapon := w }

/-- Projectile.update (src/Projectile.js lines 28-41): advance along the
direction, accumulate distance, deactivate past max range or outside the
arena plus margin. -/
def Projectile.update (pr : Projectile) (dt : ℚ) : Projectile :=
  if pr.alive = false then pr
  else
    let step := pr.speed * dt
    let x := pr.x + pr.dirX * step
    let z := pr.z + pr.dirZ * step
    let dist := pr.distTraveled + step
    if dist > PROJECTILE_MAX_DIST ∨ |x| > ARENA_HALF + 2
        ∨ |z| > ARENA_HALF + 2 then
      { pr with x := x, z := z, distTraveled := dist, alive := false }
    else { pr with x := x, z := z, distTraveled := dist }

/-- The Projectile constructor (src/Projectile.js lines 7-26): direction
normalized, stats copied, hit-set empty. -/
def mkProjectile (sq : ℚ → ℚ) (pos : ℚ × ℚ) (dir : ℚ × ℚ)
    (stats : WeaponStats) : Projectile :=
  let d := jsNormalize sq dir
  { x := pos.1, z := pos.2, dirX := d.1, dirZ := d.2, speed := stats.speed,
    distTraveled := 0, explosionRadius := stats.explosionRadius,
    alive := true, damage := stats.damage, piercing := stats.piercing,
    explosive := stats.explosive, hitEnemies := [] }

/-- Game fireWeapon (src/Game.js lines 789-820): gated on the fire
cooldown, sets it to the weapon's fire rate and appends one projectile per
pellet, with the pellet directions supplied by the oracle. -/
def fireWeapon (sq : ℚ → ℚ) (p : Player) (projs : List Projectile)
    (pelletDirs : ℕ → ℚ × ℚ) : Player × List Projectile :=
  if p.alive = false ∨ 0 < p.fireCooldown then (p, projs)
  else
    let stats := WEAPONS p.currentWeapon
    ({ p with fireCooldown := stats.fireRate },
     projs ++ (List.range stats.count).map
       (fun i => mkProjectile sq (p.x, p.z) (pelletDirs i) stats))

/-- Game onEnemyKilled (src/Game.js lines 976-998), the parts that touch
simulation state: kill and score bookkeeping and the slow-motion trigger
when the wave has just been cleared.  The floating score text and the
particle burst are external. -/
def onEnemyKilled (sc : ScoreCtx) (wm : WaveManager) (enemies : List Enemy) :
    ScoreCtx :=
  let points : ℤ := ⌊SCORE_PER_KILL * sc.multiplier⌋
  let sc1 := { sc with totalKills := sc.totalKills + 1,
                       streakTimer := STREAK_TIME,
                       score := sc.score + points,
                       multiplier := sc.multiplier + 0.5 }
  let aliveCount := (enemies.filter (fun x => !x.dying)).length
  if aliveCount = 0 ∧ wm.enemiesToSpawn = 0 ∧ wm.state = .ACTIVE then
    { sc1 with timeScale := 0.3, slowMoTimer := 0.5 }
  else sc1

/-- Enemy half of Game explodeAt (src/Game.js lines 960-968), walking the
enemy list in order while keeping the full current list available for the
kill handler's alive count. -/
def explodeAtEnemies (sq : ℚ → ℚ) (cx cz : ℚ) (wm : WaveManager) :
    List (ℕ × Enemy) → List (ℕ × Enemy) → ScoreCtx →
    List (ℕ × Enemy) × ScoreCtx
  | done, [], sc => (done.reverse, sc)
  | done, (i, e) :: rest, sc =>
    let d := distXZ sq (cx, cz) (e.x, e.z)
    let r := explodeAtEnemy e d
    let sc1 := if r.2 then
        onEnemyKilled sc wm ((done.reverse ++ (i, r.1) :: rest).map Prod.snd)
      else sc
    explodeAtEnemies sq cx cz wm ((i, r.1) :: done) rest sc1

/-- Game explodeAt (src/Game.js lines 953-974) over the world state. -/
def explodeAtW (sq : ℚ → ℚ) (cx cz : ℚ) (wm : WaveManager)
    (enemies : List (ℕ × Enemy)) (p : Player) (sc : ScoreCtx) :
    List (ℕ × Enemy) × Player × ScoreCtx :=
  let r := explodeAtEnemies sq cx cz wm [] enemies sc
  (r.1, explodeAtPlayer p (distXZ sq (cx, cz) (p.x, p.z)), r.2)

/-- ExplodingBarrel.explode over the world state: the per-distance
resolution ExplodingBarrel.explode fed with each entity's computed
distance to the barrel. -/
def ExplodingBarrel.explodeW (sq : ℚ → ℚ) (b : ExplodingBarrel)
    (es : List (ℕ × Enemy)) (p : Player) :
    ExplodingBarrel × List (ℕ × Enemy) × Player :=
  let r := ExplodingBarrel.explode b
    (es.map (fun ie => (ie.2, distXZ sq (b.x, b.z) (ie.2.x, ie.2.z))))
    (p, distXZ sq (b.x, b.z) (p.x, p.z))
  (r.1, (es.map Prod.fst).zip r.2.1, r.2.2)

/-- Concrete projectile-versus-enemy scan for one projectile (src/Game.js
lines 844-866), the geometric test computed from positions; matches the
abstract projEnemyLoop with onEnemyKilled and the explosive area damage
threaded through. -/
def projEnemyScanW (sq : ℚ → ℚ) (wm : WaveManager) (proj : Projectile) :
    List (ℕ × Enemy) → List (ℕ × Enemy) → Player → ScoreCtx →
    Projectile × List (ℕ × Enemy) × Player × ScoreCtx
  | done, [], p, sc => (proj, done.reverse, p, sc)
  | done, (i, e) :: rest, p, sc =>
    if e.dying = true ∨ i ∈ proj.hitEnemies then
      projEnemyScanW sq wm proj ((i, e) :: done) rest p sc
    else
      let d := distXZ sq (proj.x, proj.z) (e.x, e.z)
      if d < PROJECTILE_RADIUS + e.radius then
        let r := e.takeDamage proj.damage
        let enemies1 := done.reverse ++ (i, r.1) :: rest
        let sc1 := if r.2 then onEnemyKilled sc wm (enemies1.map Prod.snd)
          else sc
        if proj.piercing then
          ({ proj with hitEnemies := i :: proj.hitEnemies }, enemies1, p, sc1)
        else if proj.explosive then
          let ex := explodeAtW sq proj.x proj.z wm enemies1 p sc1
          ({ proj with alive := false }, ex.1, ex.2.1, ex.2.2)
        else
          ({ proj with alive := false }, enemies1, p, sc1)
      else
        projEnemyScanW sq wm proj ((i, e) :: done) rest p sc

/-- Concrete projectile-versus-barrel loop for one projectile (src/Game.js
lines 868-878). -/
def projBarrelLoopW (sq : ℚ → ℚ) (proj : Projectile) :
    List ExplodingBarrel → List ExplodingBarrel → List (ℕ × Enemy) →
    Player → Projectile × List ExplodingBarrel × List (ℕ × Enemy) × Player
  | done, [], es, p => (proj, done.reverse, es, p)
  | done, b :: rest, es, p =>
    if b.alive = false then projBarrelLoopW sq proj (b :: done) rest es p
    else
      let d := distXZ sq (proj.x, proj.z) (b.x, b.z)
      if d < PROJECTILE_RADIUS + b.radius then
        let ex := ExplodingBarrel.explodeW sq b es p
        ({ proj with alive := false }, done.reverse ++ ex.1 :: rest,
         ex.2.1, ex.2.2)
      else projBarrelLoopW sq proj (b :: done) rest es p

/-- Projectile phases 1 and 2 of the collision engine (src/Game.js lines
840-880): the source iterates projectile indices from the last down to 0,
so the tail of the list is processed first. -/
def projPhaseW (sq : ℚ → ℚ) (wm : WaveManager) :
    List Projectile → List (ℕ × Enemy) → List ExplodingBarrel → Player →
    ScoreCtx →
    List Projectile × List (ℕ × Enemy) × List ExplodingBarrel × Player
      × ScoreCtx
  | [], es, bs, p, sc => ([], es, bs, p, sc)
  | proj :: restProjs, es, bs, p, sc =>
    let r := projPhaseW sq wm restProjs es bs p sc
    let projs1 := r.1
    let es1 := r.2.1
    let bs1 := r.2.2.1
    let p1 := r.2.2.2.1
    let sc1 := r.2.2.2.2
    if proj.alive = false then (proj :: projs1, es1, bs1, p1, sc1)
    else
      let s := projEnemyScanW sq wm proj [] es1 p1 sc1
      let proj1 := s.1
      let es2 := s.2.1
      let p2 := s.2.2.1
      let sc2 := s.2.2.2
      if proj1.alive then
        let b := projBarrelLoopW sq proj1 [] bs1 es2 p2
        (b.1 :: projs1, b.2.2.1, b.2.1, b.2.2.2, sc2)
      else (proj1 :: projs1, es2, bs1, p2, sc2)

/-- Concrete enemy-versus-player contact phase (src/Game.js lines 882-907)
with the geometry computed from positions; the cooldown logic matches the
abstract contactStep, and a lethal application transitions the game state
to GAME_OVER (onPlayerDeath, line 899). -/
def contactPhaseW (sq : ℚ → ℚ) :
    List (ℕ × Enemy) → Player → GState → Player × List (ℕ × Enemy) × GState
  | [], p, st => (p, [], st)
  | (i, e) :: rest, p, st =>
    if e.dying then
      let r := contactPhaseW sq rest p st
      (r.1, (i, e) :: r.2.1, r.2.2)
    else
      let d := distXZ sq (p.x, p.z) (e.x, e.z)
      if d < PLAYER_RADIUS + e.radius then
        let pes :=
          if e.contactCooldown ≤ 0 ∧ p.contactCooldown ≤ 0 then
            let pa := p.takeDamage e.damage
            let pb := { pa with contactCooldown := ENEMY_CONTACT_COOLDOWN }
            let eb := { e with contactCooldown := ENEMY_CONTACT_COOLDOWN }
            let kb := jsNormalize sq (pb.x - eb.x, pb.z - eb.z)
            let pc := { pb with x := pb.x + kb.1 * 1.5,
                                z := pb.z + kb.2 * 1.5 }
            let st1 := if pc.alive = false then GState.GAME_OVER else st
            (pc, eb, st1)
          else (p, e, st)
        let p2 := pes.1
        let e2 := pes.2.1
        let push := jsNormalize sq (e2.x - p2.x, e2.z - p2.z)
        let e3 := { e2 with x := e2.x + push.1 * 0.5,
                            z := e2.z + push.2 * 0.5 }
        let r := contactPhaseW sq rest p2 pes.2.2
        (r.1, (i, e3) :: r.2.1, r.2.2)
      else
        let r := contactPhaseW sq rest p st
        (r.1, (i, e) :: r.2.1, r.2.2)

/-- Pickup collection (src/Game.js lines 909-926): the source iterates
pickup indices from the last down, so the tail is processed first;
collected pickups heal or switch the weapon and are removed. -/
def pickupPhaseW (sq : ℚ → ℚ) (p : Player) :
    List PickupItem → Player × List PickupItem
  | [] => (p, [])
  | pk :: rest =>
    let r := pickupPhaseW sq p rest
    let p1 := r.1
    let d := distXZ sq (p1.x, p1.z) (pk.x, pk.z)
    if d < PICKUP_COLLECT_RADIUS then
      match pk.kind with
      | .health => (p1.heal HEALTH_RESTORE, r.2)
      | .weapon => (p1.setWeapon pk.weaponKey, r.2)
    else (p1, pk :: r.2)

/-- Static cover push-out (src/Game.js lines 928-950): every collider in
order, skipping those whose position-matched barrel is dead. -/
def coverPhaseW (sq : ℚ → ℚ) (barrels : List ExplodingBarrel) :
    List CoverCollider → Player → List (ℕ × Enemy) →
    Player × List (ℕ × Enemy)
  | [], p, es => (p, es)
  | c :: cs, p, es =>
    if coverColliderSkipped barrels c.x c.z then
      coverPhaseW sq barrels cs p es
    else
      let pp := coverPushEntity sq p.x p.z PLAYER_RADIUS c.x c.z c.radius
      let p1 := { p with x := pp.1, z := pp.2 }
      let es1 := es.map (fun ie =>
        if ie.2.dying then ie
        else
          let ep := coverPushEntity sq ie.2.x ie.2.z ie.2.radius
            c.x c.z c.radius
          (ie.1, { ie.2 with x := ep.1, z := ep.2 }))
      coverPhaseW sq barrels cs p1 es1

/-- The orchestrator's owned collections and bookkeeping (src/Game.js
constructor); enemies paired with stable identities. -/
structure Game where
  state : GState
  player : Player
  enemies : List (ℕ × Enemy)
  projectiles : List Projectile
  pickups : List PickupItem
  barrels : List ExplodingBarrel
  coverColliders : List CoverCollider
  waveManager : WaveManager
  scoreCtx : ScoreCtx
  currentLevel : ℕ
  nextId : ℕ
deriving DecidableEq, Repr

/-- Game updateCollisions (src/Game.js lines 836-951): skipped outright
when the player is dead, otherwise the five phases in source order. -/
def Game.updateCollisions (sq : ℚ → ℚ) (g : Game) : Game :=
  if g.player.alive = false then g
  else
    let r1 := projPhaseW sq g.waveManager g.projectiles g.enemies g.barrels
      g.player g.scoreCtx
    let projs := r1.1
    let es1 := r1.2.1
    let bs1 := r1.2.2.1
    let p1 := r1.2.2.2.1
    let sc1 := r1.2.2.2.2
    let r2 := contactPhaseW sq es1 p1 g.state
    let r3 := pickupPhaseW sq r2.1 g.pickups
    let r4 := coverPhaseW sq bs1 g.coverColliders r3.1 r2.2.1
    { g with projectiles := projs, enemies := r4.2, barrels := bs1,
             player := r4.1, scoreCtx := sc1, pickups := r3.2,
             state := r2.2.2 }

/-- The per-frame enemy update sweep (src/Game.js lines 1059-1070): the
source iterates indices from the last down to 0, updating in place and
splicing out enemies whose death timer elapsed; each enemy sees the array
as it stands, with later entries already updated.  The first argument
holds the not-yet-updated enemies in reverse order, the second the already
updated suffix. -/
def enemiesUpdateGo (sq : ℚ → ℚ) (dt px pz : ℚ) :
    List (ℕ × Enemy) → List (ℕ × Enemy) → List (ℕ × Enemy)
  | [], updated => updated
  | (i, e) :: revFront, updated =>
    let others := (revFront.reverse ++ updated).map Prod.snd
    let r := Enemy.update sq e px pz dt others
    if r.2 then enemiesUpdateGo sq dt px pz revFront updated
    else enemiesUpdateGo sq dt px pz revFront ((i, r.1) :: updated)

/-- The enemy sweep over the whole list. -/
def enemiesPhase (sq : ℚ → ℚ) (dt px pz : ℚ)
    (enemies : List (ℕ × Enemy)) : List (ℕ × Enemy) :=
  enemiesUpdateGo sq dt px pz enemies.reverse []

/-- One full simulation tick (src/Game.js lines 1036-1149) for the PLAYING
and GAME_OVER states: slow-motion bookkeeping on the raw delta, the scaled
delta for everything physical, player update and weapon fire, streak
decay, the enemy sweep, projectile travel and expiry, the collision
engine, and the wave director with its spawn and clear events.  moveDir is
the input provider's move direction, pelletDirs and spawned the
random-data oracles. -/
def Game.tick (sq : ℚ → ℚ) (g : Game) (dt : ℚ) (moveDir : Option (ℚ × ℚ))
    (mouseDown : Bool) (pelletDirs : ℕ → ℚ × ℚ) (spawned : Enemy) : Game :=
  if g.state ≠ GState.PLAYING ∧ g.state ≠ GState.GAME_OVER then g
  else
    let sc0 := g.scoreCtx
    let sc1 := if 0 < sc0.slowMoTimer then
        let t := sc0.slowMoTimer - dt
        { sc0 with slowMoTimer := t,
                   timeScale := if t ≤ 0 then 1 else sc0.timeScale }
      else sc0
    let scaledDt := dt * sc1.timeScale
    let pAndProjs :=
      if g.state = GState.PLAYING then
        let p1 := g.player.update scaledDt moveDir
        if mouseDown then fireWeapon sq p1 g.projectiles pelletDirs
        else (p1, g.projectiles)
      else (g.player, g.projectiles)
    let p1 := pAndProjs.1
    let sc2 := if g.state = GState.PLAYING ∧ 0 < sc1.streakTimer then
        let t := sc1.streakTimer - scaledDt
        { sc1 with streakTimer := t,
                   multiplier := if t ≤ 0 then 1 else sc1.multiplier }
      else sc1
    let es1 := if g.state = GState.GAME_OVER then g.enemies
      else enemiesPhase sq scaledDt p1.x p1.z g.enemies
    let projs1 := (pAndProjs.2.map (fun pr => pr.update scaledDt)).filter
      (fun pr => pr.alive)
    let g1 : Game := { g with
      player := p1, enemies := es1, projectiles := projs1, scoreCtx := sc2 }
    let g2 := if g.state = GState.PLAYING then Game.updateCollisions sq g1
      else g1
    if g2.state = GState.PLAYING then
      let aliveEnemies := (g2.enemies.filter (fun ie => !ie.2.dying)).length
      let wr := g2.waveManager.update scaledDt (aliveEnemies : ℤ)
      let g3 := { g2 with waveManager := wr.1 }
      match wr.2 with
      | .SPAWN => { g3 with enemies := g3.enemies ++ [(g3.nextId, spawned)],
                            nextId := g3.nextId + 1 }
      | .WAVE_CLEAR _ =>
        if g3.currentLevel < 2 then { g3 with state := .LEVEL_TRANSITION }
        else { g3 with state := .VICTORY_CINEMATIC }
      | _ => g3
    else g2

/-- The concrete game state refuting the bounds claim: the live player at
the east wall (x = 27.4, the clamp bound for the player radius 0.6), one
fresh basic rusher just inside, no projectiles, pickups, barrels or
covers, the wave director on break. -/
def c2Game : Game :=
  { state := .PLAYING,
    player := { playerInit with x := 27.4 },
    enemies := [(0, basicEnemyAt 26.5 0)],
    projectiles := [], pickups := [], barrels := [], coverColliders := [],
    waveManager := { WaveManager.init with breakTimer := 10 },
    scoreCtx := { totalKills := 0, streakTimer := 0, score := 0,
                  multiplier := 1, timeScale := 1, slowMoTimer := 0 },
    currentLevel := 1, nextId := 1 }

/-- The square-root values queried by the counterexample tick, as a finite
table standing in for Math.sqrt (0.81 is the squared enemy-player distance
at the enemy update, 0.748225 the squared contact distance, 5.593225 the
squared push distance after the knockback); each entry is the exact square
root of its key. -/
def c2Sqrt (x : ℚ) : ℚ :=
  if x = 0.81 then 0.9
  else if x = 0.748225 then 0.865
  else if x = 5.593225 then 2.365
  else 0

/-- C2 (falsifying instance): both entities satisfy the bound before the
tick, but the tick's collision phase runs after the per-entity clamps and
its contact knockback pushes the player to x = 28.9, beyond the bound
27.4 (and beyond the arena half-extent 28), with nothing reclamping it
before the frame ends.  The first conjunct records that the supplied
square-root table is exact at every value the run queries. -/
theorem c2_bounds_counterexample :
    (c2Sqrt 0.81 * c2Sqrt 0.81 = 0.81
      ∧ c2Sqrt 0.748225 * c2Sqrt 0.748225 = 0.748225
      ∧ c2Sqrt 5.593225 * c2Sqrt 5.593225 = 5.593225)
    ∧ (|c2Game.player.x| ≤ ARENA_HALF - PLAYER_RADIUS
      ∧ |(basicEnemyAt 26.5 0).x| ≤ ARENA_HALF - (basicEnemyAt 26.5 0).radius)
    ∧ (Game.tick c2Sqrt c2Game 0.01 none false (fun _ => (0, 1))
        (basicEnemyAt 0 0)).player.x = 28.9
    ∧ ¬ (|(Game.tick c2Sqrt c2Game 0.01 none false (fun _ => (0, 1))
        (basicEnemyAt 0 0)).player.x| ≤ ARENA_HALF - PLAYER_RADIUS) := by
  have h : (Game.tick c2Sqrt c2Game 0.01 none false (fun _ => (0, 1))
      (basicEnemyAt 0 0)).player.x = 28.9 := by
    norm_num [Game.tick, Game.updateCollisions, projPhaseW, contactPhaseW,
      pickupPhaseW, coverPhaseW, enemiesPhase, enemiesUpdateGo, Enemy.update,
      enemyMove, enemySteerDir, jsNormalize, distXZ, distSqXZ, clampArena,
      Player.update, Player.takeDamage, WaveManager.update, fireWeapon,
      Projectile.update, c2Game, c2Sqrt, basicEnemyAt, playerInit,
      WaveManager.init, ARENA_HALF, PLAYER_RADIUS, PLAYER_SPEED,
      PLAYER_HEALTH, ENEMY_SEPARATION, ENEMY_CONTACT_COOLDOWN,
      WAVE_BREAK_DURATION]
  refine ⟨⟨?_, ?_, ?_⟩, ⟨?_, ?_⟩, h, ?_⟩
  · norm_num [c2Sqrt]
  · norm_num [c2Sqrt]
  · norm_num [c2Sqrt]
  · norm_num [c2Game, playerInit, ARENA_HALF, PLAYER_RADIUS, abs_le]
  · norm_num [basicEnemyAt, ARENA_HALF, abs_le]
  · rw [h]
    norm_num [ARENA_HALF, PLAYER_RADIUS, abs_le]

end Boom
